import Mathlib

/-!
Verification of the epoch-timeline builder and waveform synthesizer of
`src/pyabf/epochs.py` (class `Epochs`).

The Python class accumulates parallel per-epoch field lists
(`pointStart`, `pointEnd`, `type`, `level`, ...) and synthesizes a
per-sweep command waveform from them with numpy.  The embedding below
mirrors those parallel lists directly.  Conventions:

* Python ints are `Int` (sample counts, durations, type codes); Python
  floats (levels) are `ℚ` -- the drift law `level + levelDelta*sweep` is
  exact rational arithmetic here.
* The `type` list holds `TVal` values: Python ints, or the strings that
  `_txtFmt` writes back into the very same list (an observable in-place
  mutation of the object).
* Fallible operations return `Option`: `none` models a raised Python
  exception (`np.empty` of a negative size, numpy shape-mismatch on
  slice assignment, `IndexError` on `label[0]` of an empty list,
  `TypeError` in `"%d?" % value` on a string).
* `warnings.warn` calls are modelled as an accumulated `List String`.
* List reads such as `xs[-1]` appear as `getLastD` with a default; every
  call site reached by the construction paths has the list non-empty, so
  the default never fires there (in Python an empty list would raise,
  which only happens for file formats other than 1 and 2 -- that path is
  modelled as `none` in `constructEpochs`).
-/

namespace PyABF

/-- A Python value stored in the `type` list: an int as parsed from the
header, or the string that `_txtFmt` rewrites it to in place. -/
inductive TVal where
  | i (n : Int)
  | s (v : String)
deriving DecidableEq, Repr, Inhabited

/-- Python `==` between a `type`-list entry and an int literal: ints
compare numerically, a string never equals an int. -/
def TVal.eqInt : TVal → Int → Bool
  | .i m, n => m == n
  | .s _, _ => false

/-- One row of the `_epochPerDacSection` parallel header arrays
(`nDACNum[i]`, `nEpochType[i]`, ...). -/
structure EpochRow where
  nDACNum : Nat
  nEpochType : Int
  fEpochInitLevel : ℚ
  fEpochLevelInc : ℚ
  lEpochInitDuration : Int
  lEpochDurationInc : Int
  lEpochPulsePeriod : Int
  lEpochPulseWidth : Int

/-- The header data the `Epochs` constructor reads from the `abf`
collaborator object. -/
structure ABFData where
  abfFileFormat : Nat
  sweepPointCount : Nat
  holdingCommand : Nat → ℚ
  epochRows : List EpochRow
  nInterEpisodeLevel : Nat → Int
  dacUnits : Nat → String

/-- The mutable state of one `Epochs` object: the parallel per-epoch
field lists plus the derived summary fields. -/
structure Epochs where
  abf : ABFData
  channel : Nat
  pointStart : List Int
  pointEnd : List Int
  label : List String
  type : List TVal
  level : List ℚ
  levelDelta : List ℚ
  duration : List Int
  durationDelta : List Int
  pulsePeriod : List Int
  pulseWidth : List Int
  digitalOutputs : List Int
  pointOffset : Nat
  epochCount : Nat
  dacUnits : String

/-- `_initEpochVars`: every field list starts empty.  `pointOffset`
(Python `_pointOffset`) is only assigned by `_addPreEpoch`; it starts at
0 here and is never read before being assigned on the paths that read
it. -/
def initEpochVars (abf : ABFData) (channel : Nat) : Epochs :=
  { abf := abf, channel := channel,
    pointStart := [], pointEnd := [], label := [], type := [],
    level := [], levelDelta := [], duration := [], durationDelta := [],
    pulsePeriod := [], pulseWidth := [], digitalOutputs := [],
    pointOffset := 0, epochCount := 0, dacUnits := "" }

/-- `_updateForABFv1`: one step epoch spanning the whole sweep at the
holding command (the `warnings.warn` call is accounted for in
`constructEpochs`). -/
def updateForABFv1 (e : Epochs) : Epochs :=
  { e with
    pointStart := e.pointStart ++ [0],
    pointEnd := e.pointEnd ++ [(e.abf.sweepPointCount : Int)],
    type := e.type ++ [.i 1],
    level := e.level ++ [e.abf.holdingCommand e.channel],
    levelDelta := e.levelDelta ++ [0],
    duration := e.duration ++ [(e.abf.sweepPointCount : Int)],
    durationDelta := e.durationDelta ++ [0],
    pulsePeriod := e.pulsePeriod ++ [0],
    pulseWidth := e.pulseWidth ++ [0],
    digitalOutputs := e.digitalOutputs ++ [(e.abf.sweepPointCount : Int)] }

/-- `_addPreEpoch`: `_pointOffset = int(sweepPointCount/64)` and a fake
step epoch `[0, _pointOffset)` at the holding command. -/
def addPreEpoch (e : Epochs) : Epochs :=
  let off := e.abf.sweepPointCount / 64
  { e with
    pointOffset := off,
    pointStart := e.pointStart ++ [0],
    pointEnd := e.pointEnd ++ [(off : Int)],
    type := e.type ++ [.i 1],
    level := e.level ++ [e.abf.holdingCommand e.channel],
    levelDelta := e.levelDelta ++ [0],
    duration := e.duration ++ [(off : Int)],
    durationDelta := e.durationDelta ++ [0],
    pulsePeriod := e.pulsePeriod ++ [0],
    pulseWidth := e.pulseWidth ++ [0],
    digitalOutputs := e.digitalOutputs ++ [(off : Int)] }

/-- One iteration of the `_fillEpochsFromABF` loop: rows whose `nDACNum`
differs from the channel are skipped; otherwise the new start is the
previous `pointStart[-1] + duration[-1]` and the new end is the new
start plus the new duration (the Python code appends `pointStart` and
`duration` first and then reads them back through `[-1]`). -/
def fillStep (e : Epochs) (row : EpochRow) : Epochs :=
  if row.nDACNum ≠ e.channel then e
  else
    { e with
      pointStart := e.pointStart ++
        [e.pointStart.getLastD 0 + e.duration.getLastD 0],
      type := e.type ++ [.i row.nEpochType],
      level := e.level ++ [row.fEpochInitLevel],
      levelDelta := e.levelDelta ++ [row.fEpochLevelInc],
      duration := e.duration ++ [row.lEpochInitDuration],
      durationDelta := e.durationDelta ++ [row.lEpochDurationInc],
      pulsePeriod := e.pulsePeriod ++ [row.lEpochPulsePeriod],
      pulseWidth := e.pulseWidth ++ [row.lEpochPulseWidth],
      pointEnd := e.pointEnd ++
        [e.pointStart.getLastD 0 + e.duration.getLastD 0 + row.lEpochInitDuration] }

/-- `_fillEpochsFromABF`: fold the loop body over the header rows. -/
def fillEpochsFromABF (e : Epochs) : Epochs :=
  e.abf.epochRows.foldl fillStep e

/-- Python `xs[-1] = v` on an `Int` list. -/
def setLastI (l : List Int) (v : Int) : List Int := l.dropLast ++ [v]

/-- Python `xs[-1] = v` on a `String` list. -/
def setLastS (l : List String) (v : String) : List String := l.dropLast ++ [v]

/-- `_addPostEpoch`: if `nInterEpisodeLevel[channel]` is truthy, extend
the last epoch's end to `sweepPointCount - 1 + _pointOffset`; otherwise
append a zero-duration step epoch from the last end to
`sweepPointCount + _pointOffset` at the last level. -/
def addPostEpoch (e : Epochs) : Epochs :=
  if e.abf.nInterEpisodeLevel e.channel ≠ 0 then
    { e with
      pointEnd := setLastI e.pointEnd
        ((e.abf.sweepPointCount : Int) - 1 + (e.pointOffset : Int)) }
  else
    { e with
      pointStart := e.pointStart ++ [e.pointEnd.getLastD 0],
      pointEnd := e.pointEnd ++ [(e.abf.sweepPointCount : Int) + (e.pointOffset : Int)],
      type := e.type ++ [.i 1],
      level := e.level ++ [e.level.getLastD 0],
      levelDelta := e.levelDelta ++ [0],
      duration := e.duration ++ [0],
      durationDelta := e.durationDelta ++ [0],
      pulsePeriod := e.pulsePeriod ++ [0],
      pulseWidth := e.pulseWidth ++ [0] }

/-- `_createEpochLabels`: `label = [chr(x+64) for x in range(len(type))]`,
then `label[0] = "pre"`, then `label[-1] = "post"` when the last base
duration is zero.  (`label[0]` on an empty list raises in Python; that
case is guarded in `constructEpochs`.) -/
def createEpochLabels (e : Epochs) : Epochs :=
  let base := (List.range e.type.length).map (fun x => String.mk [Char.ofNat (x + 64)])
  let l1 := base.set 0 "pre"
  let l2 := if e.duration.getLastD 0 = 0 then setLastS l1 "post" else l1
  { e with label := l2 }

/-- `_updateEpochDetails`: derived summary fields. -/
def updateEpochDetails (e : Epochs) : Epochs :=
  { e with epochCount := e.type.length, dacUnits := e.abf.dacUnits e.channel }

/-- The compatibility diagnostic emitted by `_updateForABFv1`. -/
def abfV1Msg : String := "ABFv1 epoch synthesis not fully supported"

/-- `Epochs.__init__`: branch on the file format, then labels and
details.  The returned list collects the `warnings.warn` messages.
`none` models the `IndexError` that `_createEpochLabels` raises when
both branches were skipped (file format neither 1 nor 2) and the lists
are still empty. -/
def constructEpochs (abf : ABFData) (channel : Nat) : Option (Epochs × List String) :=
  let e0 := initEpochVars abf channel
  let step1 : Epochs × List String :=
    if abf.abfFileFormat = 1 then (updateForABFv1 e0, [abfV1Msg])
    else if abf.abfFileFormat = 2 then
      (addPostEpoch (fillEpochsFromABF (addPreEpoch e0)), [])
    else (e0, [])
  if step1.1.type.length = 0 ∨ step1.1.duration.length = 0 then none
  else some (updateEpochDetails (createEpochLabels step1.1), step1.2)

/-- The intermediate builder state for the segmented format just before
`_addPostEpoch` runs (pre-epoch added, header rows ingested). -/
def stageEpochs (abf : ABFData) (channel : Nat) : Epochs :=
  fillEpochsFromABF (addPreEpoch (initEpochVars abf channel))

/-! ## Waveform synthesis (`stimulusWaveform`) -/

/-- Resolution of a Python slice endpoint for a list of length `n`:
negative indices count from the end, then the result is clamped to
`[0, n]`. -/
def sliceIndex (n : Nat) (i : Int) : Nat :=
  let j := if i < 0 then i + n else i
  if j < 0 then 0 else if j > (n : Int) then n else j.toNat

/-- Numpy slice assignment `l[i1:i2] = chunk` (step 1).  It succeeds when
the chunk length equals the resolved slice length, or by broadcasting
when the chunk has exactly one element; any other mismatch raises
(`none`). -/
def setSlice (l : List ℚ) (i1 i2 : Int) (chunk : List ℚ) : Option (List ℚ) :=
  let a := sliceIndex l.length i1
  let b := sliceIndex l.length i2
  let len := b - a
  if chunk.length = len then
    some (l.take a ++ chunk ++ l.drop (a + len))
  else
    match chunk with
    | [c] => some (l.take a ++ List.replicate len c ++ l.drop (a + len))
    | _ => none

/-- The diagnostic emitted when an epoch's end exceeds the sweep length. -/
def clampMsg : String := "sweep length is shorter than expected."

/-- One iteration of the `stimulusWaveform` loop.  Disabled epochs
(`type == 0`) are skipped.  The end bound is clamped to the sweep length
with a warning.  `np.empty(int(i2-i1))` raises on a negative size
(`none`): the source has no `i1 >= i2` guard.  Step epochs and unknown
epoch types are both filled flat with the sweep-dependent level (the
unknown-type branch of the source builds a message string but never
passes it to `warnings.warn`). -/
def synthStep (e : Epochs) (sweepNumber : Nat) (acc : List ℚ × List String)
    (epochNumber : Nat) : Option (List ℚ × List String) :=
  let sweepC := acc.1
  let ws := acc.2
  if (e.type.getD epochNumber (.i 0)).eqInt 0 then some (sweepC, ws)
  else
    let sweepLevel := e.level.getD epochNumber 0 +
      e.levelDelta.getD epochNumber 0 * (sweepNumber : ℚ)
    let i1 := e.pointStart.getD epochNumber 0
    let i2 := e.pointEnd.getD epochNumber 0
    let ws' := if i2 > (sweepC.length : Int) then ws ++ [clampMsg] else ws
    let i2' := if i2 > (sweepC.length : Int) then (sweepC.length : Int) else i2
    if i2' - i1 < 0 then none
    else
      let chunk := List.replicate (i2' - i1).toNat sweepLevel
      (setSlice sweepC i1 i2' chunk).map (fun c => (c, ws'))

/-- `stimulusWaveform(sweepNumber)`: start from the sweep filled with the
holding command and write every enabled epoch's range over it, in epoch
order. -/
def stimulusWaveform (e : Epochs) (sweepNumber : Nat) : Option (List ℚ × List String) :=
  let sweepC := List.replicate e.abf.sweepPointCount (e.abf.holdingCommand e.channel)
  (List.range e.epochCount).foldlM (synthStep e sweepNumber) (sweepC, [])

/-! ## The text formatter's effect on the object (`_txtFmt` / `text`) -/

/-- What `_txtFmt("Type", values)` does to one entry of the list it is
handed: the entry is overwritten in place with a string.  A second call
reaches `"%d?" % value` with a string argument, which raises `TypeError`
(`none`). -/
def txtTypeMap : TVal → Option TVal
  | .i 0 => some (.s "Off")
  | .i 1 => some (.s "Step")
  | .i 2 => some (.s "Ramp")
  | .i n => some (.s (toString n ++ "?"))
  | .s _ => none

/-- The state change the `text` property performs on the `Epochs` object:
`_txtFmt("Type", self.type)` rewrites `self.type` element by element in
place; no other field is written. -/
def textEffect (e : Epochs) : Option Epochs :=
  (e.type.mapM txtTypeMap).map (fun ts => { e with type := ts })

/-! ## Predicates used by the claims -/

/-- Well-formedness of a timeline for synthesis: the field lists that
`stimulusWaveform` indexes with `epochNumber < epochCount` really have
`epochCount` entries (in Python a shorter list would raise `IndexError`;
with this hypothesis the `getD` defaults of the embedding never fire). -/
def WF (e : Epochs) : Prop :=
  e.pointStart.length = e.epochCount ∧ e.pointEnd.length = e.epochCount ∧
  e.type.length = e.epochCount ∧ e.level.length = e.epochCount ∧
  e.levelDelta.length = e.epochCount

instance (e : Epochs) : Decidable (WF e) := by unfold WF; infer_instance

/-- Epoch `j` covers sample index `i` of a sweep of `n` samples: the
epoch is enabled (its type does not equal the int 0) and `i` lies in the
fill range `[pointStart, min pointEnd n)` that the synthesizer writes. -/
def covers (e : Epochs) (n : Nat) (i : Nat) (j : Nat) : Prop :=
  (e.type.getD j (.i 0)).eqInt 0 = false ∧
  e.pointStart.getD j 0 ≤ (i : Int) ∧
  (i : Int) < min (e.pointEnd.getD j 0) (n : Int)

instance (e : Epochs) (n i j : Nat) : Decidable (covers e n i j) := by
  unfold covers; infer_instance

/-- The no-crash condition for one epoch: if it is enabled, its start is
non-negative and not past its (clamped) end.  `stimulusWaveform` raises
on any enabled epoch violating this (`np.empty` of a negative size). -/
def goodBounds (e : Epochs) : Prop :=
  ∀ j, j < e.epochCount →
    (e.type.getD j (.i 0)).eqInt 0 = false →
    0 ≤ e.pointStart.getD j 0 ∧
    e.pointStart.getD j 0 ≤ min (e.pointEnd.getD j 0) (e.abf.sweepPointCount : Int)

instance (e : Epochs) : Decidable (goodBounds e) := by
  unfold goodBounds; infer_instance

/-- One overwrite step of the spec-side value computation: a covering
enabled epoch replaces the accumulated value with its sweep-dependent
level, anything else leaves it. -/
def coversF (e : Epochs) (n : Nat) (sweepNumber : Nat) (i : Nat) (acc : ℚ) (j : Nat) : ℚ :=
  if covers e n i j
  then e.level.getD j 0 + e.levelDelta.getD j 0 * (sweepNumber : ℚ)
  else acc

/-- Spec-side description of the synthesized value at index `i`: start
from the holding command and let each covering enabled epoch overwrite
it in epoch order, so the last covering epoch wins and indices covered
by no enabled epoch keep the holding command. -/
def epochValueAt (e : Epochs) (sweepNumber : Nat) (i : Nat) : ℚ :=
  (List.range e.epochCount).foldl
    (coversF e e.abf.sweepPointCount sweepNumber i)
    (e.abf.holdingCommand e.channel)

/-- The warnings one loop iteration of `stimulusWaveform` emits: the
clamp diagnostic, for an enabled epoch whose end exceeds the sweep
length. -/
def warnOf (e : Epochs) (n : Nat) (j : Nat) : List String :=
  if (e.type.getD j (.i 0)).eqInt 0 = false ∧ (n : Int) < e.pointEnd.getD j 0
  then [clampMsg] else []

/-! ## Concrete inputs used by counterexamples and witnesses -/

/-- Segmented-format header, 64-sample sweep, one enabled epoch of
duration 100 (overrunning the sweep), sustain flag clear. -/
def abfOverrun : ABFData :=
  { abfFileFormat := 2, sweepPointCount := 64,
    holdingCommand := fun _ => 0,
    epochRows := [{ nDACNum := 0, nEpochType := 1, fEpochInitLevel := 2,
                    fEpochLevelInc := 0, lEpochInitDuration := 100,
                    lEpochDurationInc := 0, lEpochPulsePeriod := 0,
                    lEpochPulseWidth := 0 }],
    nInterEpisodeLevel := fun _ => 0,
    dacUnits := fun _ => "pA" }

/-- Like `abfOverrun` but with duration 200 and level 3. -/
def abfOverrun2 : ABFData :=
  { abfFileFormat := 2, sweepPointCount := 64,
    holdingCommand := fun _ => 0,
    epochRows := [{ nDACNum := 0, nEpochType := 1, fEpochInitLevel := 3,
                    fEpochLevelInc := 0, lEpochInitDuration := 200,
                    lEpochDurationInc := 0, lEpochPulsePeriod := 0,
                    lEpochPulseWidth := 0 }],
    nInterEpisodeLevel := fun _ => 0,
    dacUnits := fun _ => "pA" }

/-- A small well-formed timeline used as a witness input: one enabled
epoch `[0, 2)` and one disabled epoch with inverted header bounds. -/
def wEpochs1 : Epochs :=
  { abf := { abfFileFormat := 2, sweepPointCount := 4,
             holdingCommand := fun _ => 7, epochRows := [],
             nInterEpisodeLevel := fun _ => 0, dacUnits := fun _ => "mV" },
    channel := 0,
    pointStart := [0, 2], pointEnd := [2, 99], label := ["pre", "A"],
    type := [.i 1, .i 0], level := [1, 5], levelDelta := [0, 0],
    duration := [2, 97], durationDelta := [0, 0],
    pulsePeriod := [0, 0], pulseWidth := [0, 0], digitalOutputs := [],
    pointOffset := 0, epochCount := 2, dacUnits := "mV" }

/-- A small well-formed timeline used as a witness input: a single
enabled epoch `[1, 3)` with a per-sweep level delta. -/
def wEpochs2 : Epochs :=
  { abf := { abfFileFormat := 2, sweepPointCount := 5,
             holdingCommand := fun _ => 7, epochRows := [],
             nInterEpisodeLevel := fun _ => 0, dacUnits := fun _ => "mV" },
    channel := 0,
    pointStart := [1], pointEnd := [3], label := ["pre"],
    type := [.i 1], level := [2], levelDelta := [1],
    duration := [2], durationDelta := [0],
    pulsePeriod := [0], pulseWidth := [0], digitalOutputs := [],
    pointOffset := 0, epochCount := 1, dacUnits := "mV" }

/-! ## Construction machinery: invariants of the fill loop -/

/-- The per-epoch field lists written by `_fillEpochsFromABF` and
`_addPostEpoch` stay parallel (the `digitalOutputs` and `label` lists are
deliberately excluded: the loop never appends to them). -/
def ParLen (e : Epochs) : Prop :=
  e.pointStart.length = e.type.length ∧ e.pointEnd.length = e.type.length ∧
  e.level.length = e.type.length ∧ e.levelDelta.length = e.type.length ∧
  e.duration.length = e.type.length ∧ e.durationDelta.length = e.type.length ∧
  e.pulsePeriod.length = e.type.length ∧ e.pulseWidth.length = e.type.length

/-- Contiguity invariant: starts and ends chain, and the last end equals
the last start plus the last duration (the quantity the loop reads to
compute the next start). -/
def Chain (e : Epochs) : Prop :=
  e.pointStart.length = e.pointEnd.length ∧
  (∀ i, i + 1 < e.pointStart.length → e.pointEnd[i]? = e.pointStart[i + 1]?) ∧
  e.pointEnd.getLast? = some (e.pointStart.getLastD 0 + e.duration.getLastD 0)

/-- Bound invariant carried through the fill loop: every recorded epoch
has `0 ≤ start ≤ end`, and the last start and last duration are
non-negative. -/
def BState (e : Epochs) : Prop :=
  (∀ i, i < e.pointStart.length →
    ∃ s t, e.pointStart[i]? = some s ∧ e.pointEnd[i]? = some t ∧ 0 ≤ s ∧ s ≤ t) ∧
  0 ≤ e.pointStart.getLastD 0 ∧ 0 ≤ e.duration.getLastD 0 ∧
  e.pointStart.length = e.pointEnd.length

/-- Total duration of the header rows the fill loop selects for a
channel. -/
def matchedDurSum (rows : List EpochRow) (ch : Nat) : Int :=
  ((rows.filter (fun r => r.nDACNum == ch)).map (fun r => r.lEpochInitDuration)).sum

/-- Segmented-format witness header: one matching row, sustain clear. -/
def abfSeg : ABFData :=
  { abfFileFormat := 2, sweepPointCount := 128,
    holdingCommand := fun _ => 1,
    epochRows := [{ nDACNum := 0, nEpochType := 1, fEpochInitLevel := -70,
                    fEpochLevelInc := 5, lEpochInitDuration := 20,
                    lEpochDurationInc := 0, lEpochPulsePeriod := 0,
                    lEpochPulseWidth := 0 }],
    nInterEpisodeLevel := fun _ => 0,
    dacUnits := fun _ => "pA" }

/-- Segmented-format witness header: one matching row, sustain set. -/
def abfSegSustain : ABFData :=
  { abfFileFormat := 2, sweepPointCount := 128,
    holdingCommand := fun _ => 1,
    epochRows := [{ nDACNum := 0, nEpochType := 1, fEpochInitLevel := -70,
                    fEpochLevelInc := 5, lEpochInitDuration := 20,
                    lEpochDurationInc := 0, lEpochPulsePeriod := 0,
                    lEpochPulseWidth := 0 }],
    nInterEpisodeLevel := fun _ => 1,
    dacUnits := fun _ => "pA" }

/-- A legacy-format header. -/
def abfLegacy : ABFData :=
  { abfFileFormat := 1, sweepPointCount := 32,
    holdingCommand := fun _ => 4,
    epochRows := [{ nDACNum := 0, nEpochType := 2, fEpochInitLevel := 9,
                    fEpochLevelInc := 1, lEpochInitDuration := 7,
                    lEpochDurationInc := 0, lEpochPulsePeriod := 0,
                    lEpochPulseWidth := 0 }],
    nInterEpisodeLevel := fun _ => 1,
    dacUnits := fun _ => "pA" }

/-- Segmented format, zero header rows, sustain flag set. -/
def abfNoRowsSustain : ABFData :=
  { abfFileFormat := 2, sweepPointCount := 64,
    holdingCommand := fun _ => 0, epochRows := [],
    nInterEpisodeLevel := fun _ => 1, dacUnits := fun _ => "pA" }

/-- The label the code assigns to position `x` in a timeline of `n`
epochs whose last base duration is `dlast`: `"post"` at the final
position when `dlast = 0` (this wins over `"pre"` when `n = 1`),
`"pre"` at position 0 otherwise, and `chr(x + 64)` elsewhere. -/
def labelFn (n : Nat) (dlast : Int) (x : Nat) : String :=
  if x + 1 = n ∧ dlast = 0 then "post"
  else if x = 0 then "pre"
  else String.mk [Char.ofNat (x + 64)]

/-- Segmented format, a 10-sample sweep (pre-offset 0), zero header
rows, sustain flag set. -/
def abfTiny : ABFData :=
  { abfFileFormat := 2, sweepPointCount := 10,
    holdingCommand := fun _ => 0, epochRows := [],
    nInterEpisodeLevel := fun _ => 1, dacUnits := fun _ => "pA" }

/-- Segmented format with one disabled (Off) epoch at a level different
from the holding command (used by claim C4). -/
def abfOffEpoch : ABFData :=
  { abfFileFormat := 2, sweepPointCount := 64,
    holdingCommand := fun _ => 0,
    epochRows := [{ nDACNum := 0, nEpochType := 0, fEpochInitLevel := 5,
                    fEpochLevelInc := 0, lEpochInitDuration := 10,
                    lEpochDurationInc := 0, lEpochPulsePeriod := 0,
                    lEpochPulseWidth := 0 }],
    nInterEpisodeLevel := fun _ => 0,
    dacUnits := fun _ => "pA" }

/-! ## Helper lemmas: slice writes -/

theorem sliceIndex_eq_toNat {n : Nat} {i : Int} (h0 : 0 ≤ i) (hn : i ≤ (n : Int)) :
    sliceIndex n i = i.toNat := by
  have h1 : ¬ (i < 0) := by omega
  have h2 : ¬ (i > (n : Int)) := by omega
  simp [sliceIndex, h1, h2]

theorem splice_getElem? (xs chunk : List ℚ) (a : Nat) (h : a + chunk.length ≤ xs.length)
    (i : Nat) :
    (xs.take a ++ chunk ++ xs.drop (a + chunk.length))[i]? =
      if a ≤ i ∧ i < a + chunk.length then chunk[i - a]? else xs[i]? := by
  have hta : (xs.take a).length = a := by
    rw [List.length_take]; omega
  rcases Nat.lt_or_ge i a with hia | hia
  · rw [if_neg (by omega)]
    rw [List.getElem?_append_left (by simp [hta]; omega),
        List.getElem?_append_left (by omega),
        List.getElem?_take_of_lt hia]
  · rcases Nat.lt_or_ge i (a + chunk.length) with hib | hib
    · rw [if_pos ⟨hia, hib⟩]
      rw [List.getElem?_append_left (by simp [hta]; omega),
          List.getElem?_append_right (by omega), hta]
    · rw [if_neg (by omega)]
      rw [List.getElem?_append_right (by simp [hta]; omega)]
      rw [List.getElem?_drop]
      congr 1
      simp [hta]
      omega

theorem splice_length (xs chunk : List ℚ) (a : Nat) (h : a + chunk.length ≤ xs.length) :
    (xs.take a ++ chunk ++ xs.drop (a + chunk.length)).length = xs.length := by
  simp [List.length_append, List.length_take, List.length_drop]
  omega

/-! ## Helper lemmas: one synthesis step, then the whole loop -/

theorem synthStep_good (e : Epochs) (k : Nat) (xs : List ℚ) (ws : List String) (j : Nat)
    (hj : (e.type.getD j (.i 0)).eqInt 0 = false →
      0 ≤ e.pointStart.getD j 0 ∧
      e.pointStart.getD j 0 ≤ min (e.pointEnd.getD j 0) (xs.length : Int)) :
    ∃ ys, synthStep e k (xs, ws) j = some (ys, ws ++ warnOf e xs.length j) ∧
      ys.length = xs.length ∧
      ∀ i, ys[i]? = if covers e xs.length i j
        then some (e.level.getD j 0 + e.levelDelta.getD j 0 * (k : ℚ))
        else xs[i]? := by
  by_cases hoff : (e.type.getD j (.i 0)).eqInt 0 = true
  · refine ⟨xs, ?_, rfl, ?_⟩
    · have hw : warnOf e xs.length j = [] := by
        unfold warnOf
        rw [if_neg]
        rw [not_and]
        intro h1
        rw [hoff] at h1
        simp at h1
      rw [hw, List.append_nil]
      simp only [synthStep, hoff]
      simp
    · intro i
      rw [if_neg]
      unfold covers
      rw [not_and]
      intro h1
      rw [hoff] at h1
      simp at h1
  · have hoff' : (e.type.getD j (.i 0)).eqInt 0 = false := by
      revert hoff
      cases (e.type.getD j (.i 0)).eqInt 0 <;> simp
    obtain ⟨h0, hle⟩ := hj hoff'
    have hi1n : e.pointStart.getD j 0 ≤ (xs.length : Int) :=
      le_trans hle (min_le_right _ _)
    have hmin0 : 0 ≤ min (e.pointEnd.getD j 0) (xs.length : Int) := le_trans h0 hle
    have hminn : min (e.pointEnd.getD j 0) (xs.length : Int) ≤ (xs.length : Int) :=
      min_le_right _ _
    have hchunklen :
        (List.replicate (min (e.pointEnd.getD j 0) (xs.length : Int) -
            e.pointStart.getD j 0).toNat
          (e.level.getD j 0 + e.levelDelta.getD j 0 * (k : ℚ))).length =
        (min (e.pointEnd.getD j 0) (xs.length : Int)).toNat -
          (e.pointStart.getD j 0).toNat := by
      rw [List.length_replicate]
      omega
    have hslice :
        setSlice xs (e.pointStart.getD j 0) (min (e.pointEnd.getD j 0) (xs.length : Int))
          (List.replicate (min (e.pointEnd.getD j 0) (xs.length : Int) -
              e.pointStart.getD j 0).toNat
            (e.level.getD j 0 + e.levelDelta.getD j 0 * (k : ℚ))) =
        some (xs.take (e.pointStart.getD j 0).toNat ++
          List.replicate (min (e.pointEnd.getD j 0) (xs.length : Int) -
              e.pointStart.getD j 0).toNat
            (e.level.getD j 0 + e.levelDelta.getD j 0 * (k : ℚ)) ++
          xs.drop ((e.pointStart.getD j 0).toNat +
            (List.replicate (min (e.pointEnd.getD j 0) (xs.length : Int) -
                e.pointStart.getD j 0).toNat
              (e.level.getD j 0 + e.levelDelta.getD j 0 * (k : ℚ))).length)) := by
      unfold setSlice
      rw [sliceIndex_eq_toNat h0 hi1n, sliceIndex_eq_toNat hmin0 hminn]
      rw [if_pos (by rw [hchunklen])]
      rw [hchunklen]
    have e1 : synthStep e k (xs, ws) j =
        some ((xs.take (e.pointStart.getD j 0).toNat ++
          List.replicate (min (e.pointEnd.getD j 0) (xs.length : Int) -
              e.pointStart.getD j 0).toNat
            (e.level.getD j 0 + e.levelDelta.getD j 0 * (k : ℚ)) ++
          xs.drop ((e.pointStart.getD j 0).toNat +
            (List.replicate (min (e.pointEnd.getD j 0) (xs.length : Int) -
                e.pointStart.getD j 0).toNat
              (e.level.getD j 0 + e.levelDelta.getD j 0 * (k : ℚ))).length)),
          ws ++ warnOf e xs.length j) := by
      simp only [synthStep, hoff', Bool.false_eq_true, if_false]
      by_cases hc : e.pointEnd.getD j 0 > (xs.length : Int)
      · have hm : min (e.pointEnd.getD j 0) (xs.length : Int) = (xs.length : Int) := by
          omega
        have hw : warnOf e xs.length j = [clampMsg] := by
          unfold warnOf
          rw [if_pos ⟨hoff', by omega⟩]
        rw [if_pos hc, if_pos hc, if_neg (by omega)]
        rw [hw]
        rw [hm] at hslice ⊢
        rw [hslice]
        rfl
      · have hm : min (e.pointEnd.getD j 0) (xs.length : Int) = e.pointEnd.getD j 0 := by
          omega
        have hw : warnOf e xs.length j = [] := by
          unfold warnOf
          rw [if_neg (by rw [not_and]; intro _; omega)]
        rw [if_neg hc, if_neg hc, if_neg (by omega)]
        rw [hw, List.append_nil]
        rw [hm] at hslice ⊢
        rw [hslice]
        rfl
    refine ⟨_, e1, ?_, ?_⟩
    · apply splice_length
      rw [hchunklen]
      omega
    · intro i
      rw [splice_getElem? _ _ _ (by rw [hchunklen]; omega) i]
      rw [hchunklen]
      by_cases hcov : covers e xs.length i j
      · have hcov' := hcov
        unfold covers at hcov'
        obtain ⟨_, hc1, hc2⟩ := hcov'
        have hnat : (e.pointStart.getD j 0).toNat ≤ i ∧
            i < (e.pointStart.getD j 0).toNat +
              ((min (e.pointEnd.getD j 0) (xs.length : Int)).toNat -
                (e.pointStart.getD j 0).toNat) := by omega
        rw [if_pos hnat, if_pos hcov, List.getElem?_replicate, if_pos (by omega)]
      · have hnat : ¬ ((e.pointStart.getD j 0).toNat ≤ i ∧
            i < (e.pointStart.getD j 0).toNat +
              ((min (e.pointEnd.getD j 0) (xs.length : Int)).toNat -
                (e.pointStart.getD j 0).toNat)) := by
          intro hband
          obtain ⟨ha, hb⟩ := hband
          apply hcov
          unfold covers
          refine ⟨hoff', ?_, ?_⟩ <;> omega
        rw [if_neg hnat, if_neg hcov]

theorem synthFold (e : Epochs) (k : Nat) (js : List Nat) :
    ∀ (xs : List ℚ) (ws : List String),
      (∀ j ∈ js, (e.type.getD j (.i 0)).eqInt 0 = false →
        0 ≤ e.pointStart.getD j 0 ∧
        e.pointStart.getD j 0 ≤ min (e.pointEnd.getD j 0) (xs.length : Int)) →
      ∃ w, List.foldlM (synthStep e k) (xs, ws) js =
          some (w, ws ++ js.flatMap (warnOf e xs.length)) ∧
        w.length = xs.length ∧
        ∀ i, w[i]? = Option.map (fun x => js.foldl (coversF e xs.length k i) x) xs[i]? := by
  induction js with
  | nil =>
    intro xs ws _
    refine ⟨xs, by simp [List.foldlM], rfl, ?_⟩
    intro i
    cases xs[i]? <;> simp
  | cons j js ih =>
    intro xs ws hjs
    obtain ⟨ys, hstep, hlen, hget⟩ := synthStep_good e k xs ws j (hjs j (by simp))
    obtain ⟨w, hfold, hwlen, hwget⟩ := ih ys (ws ++ warnOf e xs.length j) (by
      intro j' hj' ho
      rw [hlen]
      exact hjs j' (by simp [hj']) ho)
    rw [hlen] at hfold hwget
    refine ⟨w, ?_, by rw [hwlen, hlen], ?_⟩
    · rw [List.foldlM_cons, hstep]
      simp only [Option.bind_eq_bind, Option.some_bind]
      rw [hfold, List.flatMap_cons, List.append_assoc]
    · intro i
      rw [hwget i, hget i]
      simp only [List.foldl_cons]
      by_cases hcov : covers e xs.length i j
      · rw [if_pos hcov]
        have hcov' := hcov
        unfold covers at hcov'
        have hi : i < xs.length := by
          have h2 := hcov'.2.2
          have h3 : (i : Int) < (xs.length : Int) := lt_of_lt_of_le h2 (min_le_right _ _)
          omega
        rw [List.getElem?_eq_getElem hi]
        simp only [Option.map_some']
        congr 1
        simp [coversF, hcov]
      · rw [if_neg hcov]
        have hid : ∀ x, coversF e xs.length k i x j = x := by
          intro x
          simp [coversF, hcov]
        cases hx : xs[i]? <;> simp [hid]

theorem foldl_coversF_const (e : Epochs) (n k i : Nat) (js : List Nat) (x : ℚ)
    (h : ∀ j ∈ js, ¬ covers e n i j) :
    js.foldl (coversF e n k i) x = x := by
  induction js generalizing x with
  | nil => rfl
  | cons j js ih =>
    rw [List.foldl_cons]
    rw [show coversF e n k i x j = x from by simp [coversF, h j (by simp)]]
    exact ih _ (fun j' hj' => h j' (by simp [hj']))

theorem foldl_coversF_last (e : Epochs) (n k i : Nat) (cnt j : Nat)
    (hj : j < cnt) (hcov : covers e n i j)
    (hafter : ∀ j', j < j' → j' < cnt → ¬ covers e n i j') (x : ℚ) :
    (List.range cnt).foldl (coversF e n k i) x =
      e.level.getD j 0 + e.levelDelta.getD j 0 * (k : ℚ) := by
  have hsplit : cnt = (j + 1) + (cnt - (j + 1)) := by omega
  have h1 : ∀ y : ℚ, (List.range (j + 1)).foldl (coversF e n k i) y =
      e.level.getD j 0 + e.levelDelta.getD j 0 * (k : ℚ) := by
    intro y
    rw [List.range_succ, List.foldl_append, List.foldl_cons, List.foldl_nil]
    simp [coversF, hcov]
  have h2 : ((List.range (cnt - (j + 1))).map ((j + 1) + ·)).foldl
      (coversF e n k i) (e.level.getD j 0 + e.levelDelta.getD j 0 * (k : ℚ)) =
      e.level.getD j 0 + e.levelDelta.getD j 0 * (k : ℚ) := by
    apply foldl_coversF_const
    intro j' hj'
    rw [List.mem_map] at hj'
    obtain ⟨a, ha, rfl⟩ := hj'
    exact hafter _ (by omega) (by have := List.mem_range.mp ha; omega)
  rw [hsplit, List.range_add, List.foldl_append, h1, h2]

/-! ## Claims C1 and C2 -/

/-- Claim C1, amended.  The claim as frozen is false: the source has no
`i1 >= i2` skip, and `np.empty(int(i2-i1))` raises once an enabled
epoch's start lies past its clamped end (see `C1_counterexample`).  The
amended statement: for every timeline whose enabled epochs all satisfy
`0 ≤ startSample ≤ min endSample sweepLength`, synthesis never raises,
an epoch end exceeding the sweep length is clamped and only emits the
non-fatal diagnostic, and the returned array's length is exactly
`sweepLength`. -/
theorem C1_amended_synthesisTotal (e : Epochs) (k : Nat)
    (_hwf : WF e) (hg : goodBounds e) :
    ∃ w ws, stimulusWaveform e k = some (w, ws) ∧
      w.length = e.abf.sweepPointCount ∧
      ∀ j, j < e.epochCount → (e.type.getD j (.i 0)).eqInt 0 = false →
        (e.abf.sweepPointCount : Int) < e.pointEnd.getD j 0 → clampMsg ∈ ws := by
  obtain ⟨w, hf, hl, -⟩ := synthFold e k (List.range e.epochCount)
      (List.replicate e.abf.sweepPointCount (e.abf.holdingCommand e.channel)) []
      (by
        intro j hj ho
        rw [List.length_replicate]
        exact hg j (List.mem_range.mp hj) ho)
  rw [List.length_replicate] at hf hl
  rw [List.nil_append] at hf
  refine ⟨w, (List.range e.epochCount).flatMap (warnOf e e.abf.sweepPointCount),
    ?_, hl, ?_⟩
  · simpa only [stimulusWaveform] using hf
  · intro j hj ho hlt
    rw [List.mem_flatMap]
    refine ⟨j, List.mem_range.mpr hj, ?_⟩
    unfold warnOf
    rw [if_pos ⟨ho, hlt⟩]
    simp

/-- Witness for `C1_amended_synthesisTotal` at a concrete timeline. -/
theorem C1_witness :
    WF wEpochs1 ∧ goodBounds wEpochs1 ∧
      ∃ w ws, stimulusWaveform wEpochs1 0 = some (w, ws) ∧
        w.length = wEpochs1.abf.sweepPointCount ∧
        ∀ j, j < wEpochs1.epochCount →
          (wEpochs1.type.getD j (.i 0)).eqInt 0 = false →
          (wEpochs1.abf.sweepPointCount : Int) < wEpochs1.pointEnd.getD j 0 →
          clampMsg ∈ ws :=
  ⟨by decide, by decide,
    C1_amended_synthesisTotal wEpochs1 0 (by decide) (by decide)⟩

/-- Counterexample to claim C1 as frozen: for this segmented-format
header the builder succeeds, yet `stimulusWaveform` at sweep 0 raises
(`none`): the appended post epoch is `[101, 65)`, its end is clamped to
64, and `np.empty(64 - 101)` raises rather than skipping. -/
theorem C1_counterexample :
    (constructEpochs abfOverrun 0).isSome = true ∧
    (constructEpochs abfOverrun 0).bind (fun p => stimulusWaveform p.1 0) = none := by
  constructor
  · decide
  · decide

/-- Claim C2, amended.  The claim as frozen quantifies over every
timeline and sweep index, but synthesis raises on some constructed
timelines (see `C2_counterexample`).  Amended: for every timeline whose
enabled epochs satisfy the no-crash bound condition, synthesis returns
an array of length `sweepLength` whose value at each index `i` is
`epochValueAt`: the last enabled epoch whose clamped range covers `i`
contributes `level + levelDelta * sweepIndex`, and indices covered by no
enabled epoch (including ranges of Off epochs) hold the holding
command. -/
theorem C2_amended_synthesisValues (e : Epochs) (k : Nat)
    (_hwf : WF e) (hg : goodBounds e) :
    ∃ w ws, stimulusWaveform e k = some (w, ws) ∧
      w.length = e.abf.sweepPointCount ∧
      ∀ i, i < e.abf.sweepPointCount →
        w[i]? = some (epochValueAt e k i) ∧
        ((∀ j, j < e.epochCount → ¬ covers e e.abf.sweepPointCount i j) →
          epochValueAt e k i = e.abf.holdingCommand e.channel) ∧
        (∀ j, j < e.epochCount → covers e e.abf.sweepPointCount i j →
          (∀ j', j < j' → j' < e.epochCount → ¬ covers e e.abf.sweepPointCount i j') →
          epochValueAt e k i =
            e.level.getD j 0 + e.levelDelta.getD j 0 * (k : ℚ)) := by
  obtain ⟨w, hf, hl, hv⟩ := synthFold e k (List.range e.epochCount)
      (List.replicate e.abf.sweepPointCount (e.abf.holdingCommand e.channel)) []
      (by
        intro j hj ho
        rw [List.length_replicate]
        exact hg j (List.mem_range.mp hj) ho)
  rw [List.length_replicate] at hf hl
  rw [List.nil_append] at hf
  refine ⟨w, (List.range e.epochCount).flatMap (warnOf e e.abf.sweepPointCount),
    ?_, hl, ?_⟩
  · simpa only [stimulusWaveform] using hf
  · intro i hi
    refine ⟨?_, ?_, ?_⟩
    · have := hv i
      rw [List.length_replicate] at this
      rw [this, List.getElem?_replicate, if_pos hi]
      rfl
    · intro hnone
      unfold epochValueAt
      apply foldl_coversF_const
      intro j hj
      exact hnone j (List.mem_range.mp hj)
    · intro j hj hcov hafter
      unfold epochValueAt
      exact foldl_coversF_last e _ k i _ j hj hcov hafter _

/-- Witness for `C2_amended_synthesisValues` at a concrete timeline. -/
theorem C2_witness :
    WF wEpochs2 ∧ goodBounds wEpochs2 ∧
      ∃ w ws, stimulusWaveform wEpochs2 3 = some (w, ws) ∧
        w.length = wEpochs2.abf.sweepPointCount ∧
        ∀ i, i < wEpochs2.abf.sweepPointCount →
          w[i]? = some (epochValueAt wEpochs2 3 i) ∧
          ((∀ j, j < wEpochs2.epochCount →
              ¬ covers wEpochs2 wEpochs2.abf.sweepPointCount i j) →
            epochValueAt wEpochs2 3 i = wEpochs2.abf.holdingCommand wEpochs2.channel) ∧
          (∀ j, j < wEpochs2.epochCount →
            covers wEpochs2 wEpochs2.abf.sweepPointCount i j →
            (∀ j', j < j' → j' < wEpochs2.epochCount →
              ¬ covers wEpochs2 wEpochs2.abf.sweepPointCount i j') →
            epochValueAt wEpochs2 3 i =
              wEpochs2.level.getD j 0 + wEpochs2.levelDelta.getD j 0 * (3 : ℚ)) :=
  ⟨by decide, by decide,
    C2_amended_synthesisValues wEpochs2 3 (by decide) (by decide)⟩

/-- Counterexample to claim C2 as frozen: a constructed timeline on
which synthesis returns nothing at all (it raises), so it cannot return
an array of length `sweepLength` with the described contents. -/
theorem C2_counterexample :
    (constructEpochs abfOverrun2 0).isSome = true ∧
    (constructEpochs abfOverrun2 0).bind (fun p => stimulusWaveform p.1 0) = none := by
  constructor
  · decide
  · decide

theorem fillStep_of_ne (e : Epochs) (row : EpochRow) (h : row.nDACNum ≠ e.channel) :
    fillStep e row = e := by
  unfold fillStep
  rw [if_pos h]

theorem fillStep_const (e : Epochs) (row : EpochRow) :
    (fillStep e row).abf = e.abf ∧ (fillStep e row).channel = e.channel ∧
    (fillStep e row).pointOffset = e.pointOffset ∧
    (fillStep e row).label = e.label ∧
    (fillStep e row).digitalOutputs = e.digitalOutputs := by
  unfold fillStep
  split <;> exact ⟨rfl, rfl, rfl, rfl, rfl⟩

theorem fill_const (rows : List EpochRow) (e : Epochs) :
    (rows.foldl fillStep e).abf = e.abf ∧ (rows.foldl fillStep e).channel = e.channel ∧
    (rows.foldl fillStep e).pointOffset = e.pointOffset ∧
    (rows.foldl fillStep e).label = e.label ∧
    (rows.foldl fillStep e).digitalOutputs = e.digitalOutputs := by
  induction rows generalizing e with
  | nil => exact ⟨rfl, rfl, rfl, rfl, rfl⟩
  | cons r rows ih =>
    rw [List.foldl_cons]
    obtain ⟨h1, h2, h3, h4, h5⟩ := ih (fillStep e r)
    obtain ⟨g1, g2, g3, g4, g5⟩ := fillStep_const e r
    exact ⟨h1.trans g1, h2.trans g2, h3.trans g3, h4.trans g4, h5.trans g5⟩

theorem parLen_fillStep (e : Epochs) (row : EpochRow) (h : ParLen e) :
    ParLen (fillStep e row) := by
  unfold ParLen at h ⊢
  unfold fillStep
  split
  · exact h
  · simp only [List.length_append, List.length_cons, List.length_nil]
    omega

theorem parLen_fill (rows : List EpochRow) (e : Epochs) (h : ParLen e) :
    ParLen (rows.foldl fillStep e) := by
  induction rows generalizing e with
  | nil => exact h
  | cons r rows ih =>
    rw [List.foldl_cons]
    exact ih _ (parLen_fillStep e r h)

theorem fill_type_len_mono (rows : List EpochRow) (e : Epochs) :
    e.type.length ≤ (rows.foldl fillStep e).type.length := by
  induction rows generalizing e with
  | nil => exact Nat.le_refl _
  | cons r rows ih =>
    rw [List.foldl_cons]
    refine le_trans ?_ (ih (fillStep e r))
    unfold fillStep
    split
    · exact Nat.le_refl _
    · simp

theorem fill_type_ne (rows : List EpochRow) (e : Epochs) (h : e.type ≠ []) :
    (rows.foldl fillStep e).type ≠ [] := by
  have h1 : 0 < e.type.length := List.length_pos.mpr h
  have h2 := fill_type_len_mono rows e
  exact List.length_pos.mp (by omega)

theorem chain_fillStep (e : Epochs) (row : EpochRow) (h : Chain e) :
    Chain (fillStep e row) := by
  obtain ⟨hlen, hpairs, hlast⟩ := h
  unfold fillStep
  split
  · exact ⟨hlen, hpairs, hlast⟩
  · refine ⟨by simp [hlen], ?_, ?_⟩
    · intro i hi
      simp only [List.length_append, List.length_cons, List.length_nil] at hi
      rcases Nat.lt_or_ge (i + 1) e.pointStart.length with hc | hc
      · rw [List.getElem?_append_left (by omega), List.getElem?_append_left hc]
        exact hpairs i hc
      · have hieq : i + 1 = e.pointStart.length := by omega
        rw [List.getElem?_append_left (by omega),
            List.getElem?_append_right (by omega)]
        have h0 : i + 1 - e.pointStart.length = 0 := by omega
        rw [h0]
        have hpe : e.pointEnd[i]? = e.pointEnd.getLast? := by
          rw [List.getLast?_eq_getElem?]
          congr 1
          omega
        rw [hpe, hlast]
        rfl
    · rw [List.getLast?_concat, List.getLastD_concat, List.getLastD_concat]

theorem chain_fill (rows : List EpochRow) (e : Epochs) (h : Chain e) :
    Chain (rows.foldl fillStep e) := by
  induction rows generalizing e with
  | nil => exact h
  | cons r rows ih =>
    rw [List.foldl_cons]
    exact ih _ (chain_fillStep e r h)

theorem bstate_fillStep (e : Epochs) (row : EpochRow)
    (hd : 0 ≤ row.lEpochInitDuration) (h : BState e) :
    BState (fillStep e row) := by
  obtain ⟨hb, hs0, hd0, hlen⟩ := h
  unfold fillStep
  split
  · exact ⟨hb, hs0, hd0, hlen⟩
  · refine ⟨?_, ?_, ?_, by simp [hlen]⟩
    · intro i hi
      simp only [List.length_append, List.length_cons, List.length_nil] at hi
      rcases Nat.lt_or_ge i e.pointStart.length with hc | hc
      · obtain ⟨s, t, h1, h2, h3, h4⟩ := hb i hc
        exact ⟨s, t, by rw [List.getElem?_append_left hc]; exact h1,
          by rw [List.getElem?_append_left (by omega)]; exact h2, h3, h4⟩
      · have hieq : i = e.pointStart.length := by omega
        refine ⟨e.pointStart.getLastD 0 + e.duration.getLastD 0,
          e.pointStart.getLastD 0 + e.duration.getLastD 0 + row.lEpochInitDuration,
          ?_, ?_, by omega, by omega⟩
        · rw [List.getElem?_append_right (by omega)]
          have h0 : i - e.pointStart.length = 0 := by omega
          rw [h0]
          rfl
        · rw [List.getElem?_append_right (by omega)]
          have h0 : i - e.pointEnd.length = 0 := by omega
          rw [h0]
          rfl
    · rw [List.getLastD_concat]
      omega
    · rw [List.getLastD_concat]
      exact hd

theorem bstate_fill (rows : List EpochRow) (e : Epochs)
    (hd : ∀ r ∈ rows, 0 ≤ r.lEpochInitDuration) (h : BState e) :
    BState (rows.foldl fillStep e) := by
  induction rows generalizing e with
  | nil => exact h
  | cons r rows ih =>
    rw [List.foldl_cons]
    exact ih (fillStep e r) (fun r' hr' => hd r' (by simp [hr']))
      (bstate_fillStep e r (hd r (by simp)) h)

theorem matchedDurSum_cons_eq (row : EpochRow) (rows : List EpochRow) (ch : Nat)
    (h : row.nDACNum = ch) :
    matchedDurSum (row :: rows) ch = row.lEpochInitDuration + matchedDurSum rows ch := by
  unfold matchedDurSum
  rw [List.filter_cons_of_pos (by simp [h])]
  simp

theorem matchedDurSum_cons_ne (row : EpochRow) (rows : List EpochRow) (ch : Nat)
    (h : row.nDACNum ≠ ch) :
    matchedDurSum (row :: rows) ch = matchedDurSum rows ch := by
  unfold matchedDurSum
  rw [List.filter_cons_of_neg (by simp [h])]

theorem fill_S (rows : List EpochRow) (e : Epochs) :
    (rows.foldl fillStep e).pointStart.getLastD 0 +
      (rows.foldl fillStep e).duration.getLastD 0 =
    e.pointStart.getLastD 0 + e.duration.getLastD 0 + matchedDurSum rows e.channel := by
  induction rows generalizing e with
  | nil =>
    simp [matchedDurSum]
  | cons r rows ih =>
    rw [List.foldl_cons, ih (fillStep e r), (fillStep_const e r).2.1]
    by_cases hm : r.nDACNum = e.channel
    · rw [matchedDurSum_cons_eq r rows e.channel hm]
      have hne : ¬ (r.nDACNum ≠ e.channel) := by simp [hm]
      unfold fillStep
      rw [if_neg hne]
      simp only [List.getLastD_concat]
      ring
    · rw [matchedDurSum_cons_ne r rows e.channel hm, fillStep_of_ne e r hm]

theorem fill_dur_nonneg (rows : List EpochRow) (e : Epochs)
    (hd : ∀ r ∈ rows, 0 ≤ r.lEpochInitDuration) (h : 0 ≤ e.duration.getLastD 0) :
    0 ≤ (rows.foldl fillStep e).duration.getLastD 0 := by
  induction rows generalizing e with
  | nil => exact h
  | cons r rows ih =>
    rw [List.foldl_cons]
    refine ih (fillStep e r) (fun r' hr' => hd r' (by simp [hr'])) ?_
    unfold fillStep
    split
    · exact h
    · rw [List.getLastD_concat]
      exact hd r (by simp)

theorem fill_head (rows : List EpochRow) (e : Epochs) (hpar : ParLen e)
    (hne : 0 < e.type.length) :
    (rows.foldl fillStep e).pointStart[0]? = e.pointStart[0]? ∧
    (rows.foldl fillStep e).type[0]? = e.type[0]? ∧
    (rows.foldl fillStep e).level[0]? = e.level[0]? ∧
    (rows.foldl fillStep e).duration[0]? = e.duration[0]? := by
  induction rows generalizing e with
  | nil => exact ⟨rfl, rfl, rfl, rfl⟩
  | cons r rows ih =>
    rw [List.foldl_cons]
    obtain ⟨h1, h2, h3, h4⟩ := ih (fillStep e r) (parLen_fillStep e r hpar)
      (by
        unfold fillStep
        split
        · exact hne
        · simp)
    obtain ⟨hp1, hp2, hp3, hp4, hp5, hp6, hp7, hp8⟩ := hpar
    refine ⟨h1.trans ?_, h2.trans ?_, h3.trans ?_, h4.trans ?_⟩ <;>
      (unfold fillStep; split)
    · rfl
    · exact List.getElem?_append_left (by omega)
    · rfl
    · exact List.getElem?_append_left (by omega)
    · rfl
    · exact List.getElem?_append_left (by omega)
    · rfl
    · exact List.getElem?_append_left (by omega)

/-! ## Construction machinery: the staged states and the constructor -/

theorem stage_parLen (abf : ABFData) (ch : Nat) : ParLen (stageEpochs abf ch) := by
  unfold stageEpochs fillEpochsFromABF
  apply parLen_fill
  unfold ParLen addPreEpoch initEpochVars
  simp

theorem stage_type_len (abf : ABFData) (ch : Nat) :
    0 < (stageEpochs abf ch).type.length := by
  unfold stageEpochs fillEpochsFromABF
  have h := fill_type_len_mono (addPreEpoch (initEpochVars abf ch)).abf.epochRows
    (addPreEpoch (initEpochVars abf ch))
  have hpre : (addPreEpoch (initEpochVars abf ch)).type.length = 1 := by
    simp [addPreEpoch, initEpochVars]
  omega

theorem stage_chain (abf : ABFData) (ch : Nat) : Chain (stageEpochs abf ch) := by
  unfold stageEpochs fillEpochsFromABF
  apply chain_fill
  refine ⟨by simp [addPreEpoch, initEpochVars], ?_, ?_⟩
  · intro i hi
    simp [addPreEpoch, initEpochVars] at hi
  · simp [addPreEpoch, initEpochVars]

theorem stage_bstate (abf : ABFData) (ch : Nat)
    (hd : ∀ r ∈ abf.epochRows, 0 ≤ r.lEpochInitDuration) :
    BState (stageEpochs abf ch) := by
  unfold stageEpochs fillEpochsFromABF
  apply bstate_fill
  · simpa [addPreEpoch, initEpochVars] using hd
  · refine ⟨?_, by simp [addPreEpoch, initEpochVars],
      by simp [addPreEpoch, initEpochVars]; omega,
      by simp [addPreEpoch, initEpochVars]⟩
    intro i hi
    have hi0 : i = 0 := by
      simpa [addPreEpoch, initEpochVars] using hi
    subst hi0
    refine ⟨0, ((abf.sweepPointCount / 64 : Nat) : Int), ?_, ?_, le_refl 0, by omega⟩
    · simp [addPreEpoch, initEpochVars]
    · simp [addPreEpoch, initEpochVars]

theorem stage_const (abf : ABFData) (ch : Nat) :
    (stageEpochs abf ch).abf = abf ∧ (stageEpochs abf ch).channel = ch ∧
    (stageEpochs abf ch).pointOffset = abf.sweepPointCount / 64 ∧
    (stageEpochs abf ch).label = [] ∧
    (stageEpochs abf ch).digitalOutputs = [((abf.sweepPointCount / 64 : Nat) : Int)] := by
  unfold stageEpochs fillEpochsFromABF
  obtain ⟨h1, h2, h3, h4, h5⟩ := fill_const (addPreEpoch (initEpochVars abf ch)).abf.epochRows
    (addPreEpoch (initEpochVars abf ch))
  refine ⟨h1.trans (by simp [addPreEpoch, initEpochVars]),
    h2.trans (by simp [addPreEpoch, initEpochVars]),
    h3.trans (by simp [addPreEpoch, initEpochVars]),
    h4.trans (by simp [addPreEpoch, initEpochVars]),
    h5.trans (by simp [addPreEpoch, initEpochVars])⟩

theorem addPost_type_len (e : Epochs) (h : 0 < e.type.length) :
    0 < (addPostEpoch e).type.length := by
  unfold addPostEpoch
  split
  · exact h
  · simp

theorem addPost_parLen (e : Epochs) (hpar : ParLen e) (h : 0 < e.type.length) :
    ParLen (addPostEpoch e) := by
  obtain ⟨p1, p2, p3, p4, p5, p6, p7, p8⟩ := hpar
  unfold addPostEpoch
  split
  · unfold ParLen setLastI
    simp only [List.length_append, List.length_dropLast, List.length_cons,
      List.length_nil]
    omega
  · unfold ParLen
    simp only [List.length_append, List.length_cons, List.length_nil]
    omega

theorem construct_v2 (abf : ABFData) (ch : Nat) (h2 : abf.abfFileFormat = 2) :
    constructEpochs abf ch =
      some (updateEpochDetails (createEpochLabels (addPostEpoch (stageEpochs abf ch))), []) := by
  have hty : 0 < (addPostEpoch (stageEpochs abf ch)).type.length :=
    addPost_type_len _ (stage_type_len abf ch)
  have hpar : ParLen (addPostEpoch (stageEpochs abf ch)) :=
    addPost_parLen _ (stage_parLen abf ch) (stage_type_len abf ch)
  have hdu : 0 < (addPostEpoch (stageEpochs abf ch)).duration.length := by
    have h5 := hpar.2.2.2.2.1
    omega
  have e1 : constructEpochs abf ch =
      (if (addPostEpoch (stageEpochs abf ch)).type.length = 0 ∨
          (addPostEpoch (stageEpochs abf ch)).duration.length = 0 then none
       else some (updateEpochDetails (createEpochLabels
         (addPostEpoch (stageEpochs abf ch))), [])) := by
    unfold constructEpochs stageEpochs
    rw [h2]
    norm_num
  rw [e1, if_neg (by omega)]

theorem construct_v1 (abf : ABFData) (ch : Nat) (h1 : abf.abfFileFormat = 1) :
    constructEpochs abf ch =
      some (updateEpochDetails (createEpochLabels
        (updateForABFv1 (initEpochVars abf ch))), [abfV1Msg]) := by
  have e1 : constructEpochs abf ch =
      (if (updateForABFv1 (initEpochVars abf ch)).type.length = 0 ∨
          (updateForABFv1 (initEpochVars abf ch)).duration.length = 0 then none
       else some (updateEpochDetails (createEpochLabels
         (updateForABFv1 (initEpochVars abf ch))), [abfV1Msg])) := by
    unfold constructEpochs
    rw [h1]
    norm_num
  rw [e1, if_neg (by simp [updateForABFv1, initEpochVars])]

theorem labelsDetails_proj (x : Epochs) :
    (updateEpochDetails (createEpochLabels x)).pointStart = x.pointStart ∧
    (updateEpochDetails (createEpochLabels x)).pointEnd = x.pointEnd ∧
    (updateEpochDetails (createEpochLabels x)).type = x.type ∧
    (updateEpochDetails (createEpochLabels x)).level = x.level ∧
    (updateEpochDetails (createEpochLabels x)).levelDelta = x.levelDelta ∧
    (updateEpochDetails (createEpochLabels x)).duration = x.duration ∧
    (updateEpochDetails (createEpochLabels x)).durationDelta = x.durationDelta ∧
    (updateEpochDetails (createEpochLabels x)).pulsePeriod = x.pulsePeriod ∧
    (updateEpochDetails (createEpochLabels x)).pulseWidth = x.pulseWidth ∧
    (updateEpochDetails (createEpochLabels x)).epochCount = x.type.length ∧
    (updateEpochDetails (createEpochLabels x)).abf = x.abf ∧
    (updateEpochDetails (createEpochLabels x)).channel = x.channel ∧
    (updateEpochDetails (createEpochLabels x)).pointOffset = x.pointOffset :=
  ⟨rfl, rfl, rfl, rfl, rfl, rfl, rfl, rfl, rfl, rfl, rfl, rfl, rfl⟩

theorem addPost_fields_sustain (e : Epochs) (h : e.abf.nInterEpisodeLevel e.channel ≠ 0) :
    (addPostEpoch e).pointStart = e.pointStart ∧
    (addPostEpoch e).pointEnd = setLastI e.pointEnd
      ((e.abf.sweepPointCount : Int) - 1 + (e.pointOffset : Int)) ∧
    (addPostEpoch e).type = e.type ∧
    (addPostEpoch e).level = e.level ∧
    (addPostEpoch e).levelDelta = e.levelDelta ∧
    (addPostEpoch e).duration = e.duration ∧
    (addPostEpoch e).durationDelta = e.durationDelta ∧
    (addPostEpoch e).pulsePeriod = e.pulsePeriod ∧
    (addPostEpoch e).pulseWidth = e.pulseWidth := by
  unfold addPostEpoch
  rw [if_pos h]
  exact ⟨rfl, rfl, rfl, rfl, rfl, rfl, rfl, rfl, rfl⟩

theorem addPost_fields_revert (e : Epochs) (h : e.abf.nInterEpisodeLevel e.channel = 0) :
    (addPostEpoch e).pointStart = e.pointStart ++ [e.pointEnd.getLastD 0] ∧
    (addPostEpoch e).pointEnd = e.pointEnd ++
      [(e.abf.sweepPointCount : Int) + (e.pointOffset : Int)] ∧
    (addPostEpoch e).type = e.type ++ [.i 1] ∧
    (addPostEpoch e).level = e.level ++ [e.level.getLastD 0] ∧
    (addPostEpoch e).levelDelta = e.levelDelta ++ [0] ∧
    (addPostEpoch e).duration = e.duration ++ [0] ∧
    (addPostEpoch e).durationDelta = e.durationDelta ++ [0] ∧
    (addPostEpoch e).pulsePeriod = e.pulsePeriod ++ [0] ∧
    (addPostEpoch e).pulseWidth = e.pulseWidth ++ [0] := by
  unfold addPostEpoch
  rw [if_neg (by simp [h])]
  exact ⟨rfl, rfl, rfl, rfl, rfl, rfl, rfl, rfl, rfl⟩

/-! ## Claim C3 -/

/-- Claim C3, confirmed: for every segmented-format input the
constructed timeline's bounds are contiguous and gapless, each epoch's
end being the next epoch's start. -/
theorem C3_contiguousBounds (abf : ABFData) (ch : Nat) (h2 : abf.abfFileFormat = 2) :
    ∃ e ws, constructEpochs abf ch = some (e, ws) ∧
      ∀ i, i + 1 < e.epochCount → e.pointEnd[i]? = e.pointStart[i + 1]? := by
  refine ⟨_, _, construct_v2 abf ch h2, ?_⟩
  obtain ⟨f1, f2, f3, -, -, -, -, -, -, f11, -, -, -⟩ :=
    labelsDetails_proj (addPostEpoch (stageEpochs abf ch))
  rw [f1, f2, f11]
  obtain ⟨hclen, hcpairs, hclast⟩ := stage_chain abf ch
  obtain ⟨p1, p2, p3, p4, p5, p6, p7, p8⟩ := stage_parLen abf ch
  have hst := stage_type_len abf ch
  by_cases hsus : (stageEpochs abf ch).abf.nInterEpisodeLevel
      (stageEpochs abf ch).channel ≠ 0
  · obtain ⟨g1, g2, g3, -, -, -, -, -, -⟩ := addPost_fields_sustain _ hsus
    rw [g1, g2, g3]
    intro i hi
    unfold setLastI
    rw [List.getElem?_append_left (by rw [List.length_dropLast]; omega),
        List.getElem?_dropLast, if_pos (by omega)]
    exact hcpairs i (by omega)
  · have hs0 : (stageEpochs abf ch).abf.nInterEpisodeLevel
        (stageEpochs abf ch).channel = 0 := by
      push_neg at hsus
      exact hsus
    obtain ⟨g1, g2, g3, -, -, -, -, -, -⟩ := addPost_fields_revert _ hs0
    rw [g1, g2, g3]
    intro i hi
    simp only [List.length_append, List.length_cons, List.length_nil] at hi
    rcases Nat.lt_or_ge (i + 1) (stageEpochs abf ch).pointStart.length with hc | hc
    · rw [List.getElem?_append_left (by omega), List.getElem?_append_left hc]
      exact hcpairs i hc
    · have hieq : i + 1 = (stageEpochs abf ch).pointStart.length := by omega
      rw [List.getElem?_append_left (by omega),
          List.getElem?_append_right (by omega)]
      have h0 : i + 1 - (stageEpochs abf ch).pointStart.length = 0 := by omega
      rw [h0]
      have hpe : (stageEpochs abf ch).pointEnd[i]? =
          (stageEpochs abf ch).pointEnd.getLast? := by
        rw [List.getLast?_eq_getElem?]
        congr 1
        omega
      rw [hpe, hclast]
      simp [List.getLastD_eq_getLast?, hclast]

/-- Witness for `C3_contiguousBounds` at a concrete header. -/
theorem C3_witness :
    abfSeg.abfFileFormat = 2 ∧
      ∃ e ws, constructEpochs abfSeg 0 = some (e, ws) ∧
        ∀ i, i + 1 < e.epochCount → e.pointEnd[i]? = e.pointStart[i + 1]? :=
  ⟨rfl, C3_contiguousBounds abfSeg 0 rfl⟩

/-! ## Claim C8 -/

/-- Claim C8, confirmed: a legacy-format input yields exactly one step
epoch `[0, sweepLength)` at the holding command with zero deltas, no
pre/post synthesis, and the compatibility diagnostic. -/
theorem C8_legacyFormat (abf : ABFData) (ch : Nat) (h1 : abf.abfFileFormat = 1) :
    ∃ e ws, constructEpochs abf ch = some (e, ws) ∧
      e.pointStart = [0] ∧ e.pointEnd = [(abf.sweepPointCount : Int)] ∧
      e.type = [.i 1] ∧ e.level = [abf.holdingCommand ch] ∧ e.levelDelta = [0] ∧
      e.duration = [(abf.sweepPointCount : Int)] ∧ e.durationDelta = [0] ∧
      e.epochCount = 1 ∧ ws = [abfV1Msg] := by
  refine ⟨_, _, construct_v1 abf ch h1, ?_, ?_, ?_, ?_, ?_, ?_, ?_, ?_, rfl⟩ <;>
    simp [updateEpochDetails, createEpochLabels, updateForABFv1, initEpochVars]

/-- Witness for `C8_legacyFormat` at a concrete header (whose rows and
sustain flag are ignored by the legacy branch). -/
theorem C8_witness :
    abfLegacy.abfFileFormat = 1 ∧
      ∃ e ws, constructEpochs abfLegacy 0 = some (e, ws) ∧
        e.pointStart = [0] ∧ e.pointEnd = [(abfLegacy.sweepPointCount : Int)] ∧
        e.type = [.i 1] ∧ e.level = [abfLegacy.holdingCommand 0] ∧
        e.levelDelta = [0] ∧ e.duration = [(abfLegacy.sweepPointCount : Int)] ∧
        e.durationDelta = [0] ∧ e.epochCount = 1 ∧ ws = [abfV1Msg] :=
  ⟨rfl, C8_legacyFormat abfLegacy 0 rfl⟩

/-! ## Claim C10 -/

theorem createEpochLabels_label_length (e : Epochs) (h : 0 < e.type.length) :
    (updateEpochDetails (createEpochLabels e)).label.length = e.type.length := by
  unfold updateEpochDetails createEpochLabels setLastS
  dsimp only
  split <;>
    simp only [List.length_append, List.length_dropLast, List.length_set,
      List.length_map, List.length_range, List.length_cons, List.length_nil] <;>
    omega

/-- Claim C10, confirmed: after construction in either format, the ten
per-epoch field lists (including `label`) all have length `epochCount`
(`digitalOutputs` is excluded, as the claim allows). -/
theorem C10_parallelLengths (abf : ABFData) (ch : Nat)
    (h : abf.abfFileFormat = 1 ∨ abf.abfFileFormat = 2) :
    ∃ e ws, constructEpochs abf ch = some (e, ws) ∧
      e.pointStart.length = e.epochCount ∧ e.pointEnd.length = e.epochCount ∧
      e.type.length = e.epochCount ∧ e.level.length = e.epochCount ∧
      e.levelDelta.length = e.epochCount ∧ e.duration.length = e.epochCount ∧
      e.durationDelta.length = e.epochCount ∧ e.pulsePeriod.length = e.epochCount ∧
      e.pulseWidth.length = e.epochCount ∧ e.label.length = e.epochCount := by
  rcases h with h1 | h2
  · refine ⟨_, _, construct_v1 abf ch h1, ?_⟩
    obtain ⟨f1, f2, f3, f4, f5, f6, f7, f8, f9, f11, -, -, -⟩ :=
      labelsDetails_proj (updateForABFv1 (initEpochVars abf ch))
    have hlab := createEpochLabels_label_length (updateForABFv1 (initEpochVars abf ch))
      (by simp [updateForABFv1, initEpochVars])
    rw [f1, f2, f3, f4, f5, f6, f7, f8, f9, f11, hlab]
    refine ⟨?_, ?_, rfl, ?_, ?_, ?_, ?_, ?_, ?_, rfl⟩ <;>
      simp [updateForABFv1, initEpochVars]
  · refine ⟨_, _, construct_v2 abf ch h2, ?_⟩
    obtain ⟨f1, f2, f3, f4, f5, f6, f7, f8, f9, f11, -, -, -⟩ :=
      labelsDetails_proj (addPostEpoch (stageEpochs abf ch))
    obtain ⟨q1, q2, q3, q4, q5, q6, q7, q8⟩ :=
      addPost_parLen _ (stage_parLen abf ch) (stage_type_len abf ch)
    have hlab := createEpochLabels_label_length (addPostEpoch (stageEpochs abf ch))
      (addPost_type_len _ (stage_type_len abf ch))
    rw [f1, f2, f3, f4, f5, f6, f7, f8, f9, f11, hlab]
    exact ⟨q1, q2, rfl, q3, q4, q5, q6, q7, q8, rfl⟩

/-! ## Claim C5 -/

/-- Claim C5, confirmed: post-epoch synthesis branches exactly on the
per-channel sustain flag.  When the flag is truthy, no epoch is appended
and only the last end bound becomes `sweepLength - 1 + preOffset`; when
it is zero, exactly one trailing zero-duration step epoch
`[lastEnd, sweepLength + preOffset)` is appended at the previous level
with zero level delta. -/
theorem C5_postEpochBranches (abf : ABFData) (ch : Nat) (h2 : abf.abfFileFormat = 2) :
    ∃ e ws, constructEpochs abf ch = some (e, ws) ∧
      (abf.nInterEpisodeLevel ch ≠ 0 →
        e.epochCount = (stageEpochs abf ch).type.length ∧
        e.pointStart = (stageEpochs abf ch).pointStart ∧
        e.type = (stageEpochs abf ch).type ∧
        e.level = (stageEpochs abf ch).level ∧
        e.levelDelta = (stageEpochs abf ch).levelDelta ∧
        e.duration = (stageEpochs abf ch).duration ∧
        e.pointEnd = setLastI (stageEpochs abf ch).pointEnd
          ((abf.sweepPointCount : Int) - 1 + ((abf.sweepPointCount / 64 : Nat) : Int))) ∧
      (abf.nInterEpisodeLevel ch = 0 →
        e.epochCount = (stageEpochs abf ch).type.length + 1 ∧
        e.pointStart = (stageEpochs abf ch).pointStart ++
          [(stageEpochs abf ch).pointEnd.getLastD 0] ∧
        e.pointEnd = (stageEpochs abf ch).pointEnd ++
          [(abf.sweepPointCount : Int) + ((abf.sweepPointCount / 64 : Nat) : Int)] ∧
        e.type = (stageEpochs abf ch).type ++ [.i 1] ∧
        e.level = (stageEpochs abf ch).level ++
          [(stageEpochs abf ch).level.getLastD 0] ∧
        e.levelDelta = (stageEpochs abf ch).levelDelta ++ [0] ∧
        e.duration = (stageEpochs abf ch).duration ++ [0]) := by
  obtain ⟨c1, c2, c3, -, -⟩ := stage_const abf ch
  refine ⟨_, _, construct_v2 abf ch h2, ?_, ?_⟩
  · intro hsus
    have hsus' : (stageEpochs abf ch).abf.nInterEpisodeLevel
        (stageEpochs abf ch).channel ≠ 0 := by
      rw [c1, c2]
      exact hsus
    obtain ⟨g1, g2, g3, g4, g5, g6, -, -, -⟩ := addPost_fields_sustain _ hsus'
    obtain ⟨f1, f2, f3, f4, f5, f6, -, -, -, f11, -, -, -⟩ :=
      labelsDetails_proj (addPostEpoch (stageEpochs abf ch))
    rw [f11, f1, f2, f3, f4, f5, f6, g1, g2, g3, g4, g5, g6, c1, c3]
    exact ⟨rfl, rfl, rfl, rfl, rfl, rfl, rfl⟩
  · intro hsus
    have hsus' : (stageEpochs abf ch).abf.nInterEpisodeLevel
        (stageEpochs abf ch).channel = 0 := by
      rw [c1, c2]
      exact hsus
    obtain ⟨g1, g2, g3, g4, g5, g6, -, -, -⟩ := addPost_fields_revert _ hsus'
    obtain ⟨f1, f2, f3, f4, f5, f6, -, -, -, f11, -, -, -⟩ :=
      labelsDetails_proj (addPostEpoch (stageEpochs abf ch))
    rw [f11, f1, f2, f3, f4, f5, f6, g1, g2, g3, g4, g5, g6, c1, c3]
    exact ⟨by rw [List.length_append, List.length_cons, List.length_nil], rfl, rfl,
      rfl, rfl, rfl, rfl⟩

/-- Witness for `C5_postEpochBranches` at a concrete sustain-set header. -/
theorem C5_witness :
    abfSegSustain.abfFileFormat = 2 ∧
      ∃ e ws, constructEpochs abfSegSustain 0 = some (e, ws) ∧
        (abfSegSustain.nInterEpisodeLevel 0 ≠ 0 →
          e.epochCount = (stageEpochs abfSegSustain 0).type.length ∧
          e.pointStart = (stageEpochs abfSegSustain 0).pointStart ∧
          e.type = (stageEpochs abfSegSustain 0).type ∧
          e.level = (stageEpochs abfSegSustain 0).level ∧
          e.levelDelta = (stageEpochs abfSegSustain 0).levelDelta ∧
          e.duration = (stageEpochs abfSegSustain 0).duration ∧
          e.pointEnd = setLastI (stageEpochs abfSegSustain 0).pointEnd
            ((abfSegSustain.sweepPointCount : Int) - 1 +
              ((abfSegSustain.sweepPointCount / 64 : Nat) : Int))) ∧
        (abfSegSustain.nInterEpisodeLevel 0 = 0 →
          e.epochCount = (stageEpochs abfSegSustain 0).type.length + 1 ∧
          e.pointStart = (stageEpochs abfSegSustain 0).pointStart ++
            [(stageEpochs abfSegSustain 0).pointEnd.getLastD 0] ∧
          e.pointEnd = (stageEpochs abfSegSustain 0).pointEnd ++
            [(abfSegSustain.sweepPointCount : Int) +
              ((abfSegSustain.sweepPointCount / 64 : Nat) : Int)] ∧
          e.type = (stageEpochs abfSegSustain 0).type ++ [.i 1] ∧
          e.level = (stageEpochs abfSegSustain 0).level ++
            [(stageEpochs abfSegSustain 0).level.getLastD 0] ∧
          e.levelDelta = (stageEpochs abfSegSustain 0).levelDelta ++ [0] ∧
          e.duration = (stageEpochs abfSegSustain 0).duration ++ [0]) :=
  ⟨rfl, C5_postEpochBranches abfSegSustain 0 rfl⟩

/-! ## Claim C6 -/

theorem stage_head (abf : ABFData) (ch : Nat) :
    (stageEpochs abf ch).pointStart[0]? = some 0 ∧
    (stageEpochs abf ch).type[0]? = some (.i 1) ∧
    (stageEpochs abf ch).level[0]? = some (abf.holdingCommand ch) ∧
    (stageEpochs abf ch).duration[0]? = some ((abf.sweepPointCount / 64 : Nat) : Int) := by
  unfold stageEpochs fillEpochsFromABF
  obtain ⟨h1, h2, h3, h4⟩ := fill_head (addPreEpoch (initEpochVars abf ch)).abf.epochRows
    (addPreEpoch (initEpochVars abf ch))
    (by unfold ParLen; simp [addPreEpoch, initEpochVars])
    (by simp [addPreEpoch, initEpochVars])
  exact ⟨h1.trans (by simp [addPreEpoch, initEpochVars]),
    h2.trans (by simp [addPreEpoch, initEpochVars]),
    h3.trans (by simp [addPreEpoch, initEpochVars]),
    h4.trans (by simp [addPreEpoch, initEpochVars])⟩

/-- Claim C6, amended.  The claim as frozen is false: with the sustain
flag set and zero matching header rows, the timeline is the single
(extended) pre-epoch and no post-epoch exists (see
`C6_counterexample`).  Amended: every constructed timeline is non-empty;
for the segmented format its first epoch is the synthetic pre-epoch
(start 0, Step, holding level, duration `sweepLength/64`), and exactly
when the sustain flag is zero a synthetic zero-duration post-epoch is
additionally appended, making the timeline at least two epochs long. -/
theorem C6_amended_nonempty (abf : ABFData) (ch : Nat)
    (h : abf.abfFileFormat = 1 ∨ abf.abfFileFormat = 2) :
    ∃ e ws, constructEpochs abf ch = some (e, ws) ∧ 0 < e.epochCount ∧
      (abf.abfFileFormat = 2 →
        e.pointStart[0]? = some 0 ∧ e.type[0]? = some (.i 1) ∧
        e.level[0]? = some (abf.holdingCommand ch) ∧
        e.duration[0]? = some ((abf.sweepPointCount / 64 : Nat) : Int) ∧
        (abf.nInterEpisodeLevel ch = 0 →
          2 ≤ e.epochCount ∧ e.duration.getLast? = some 0 ∧
          e.type.getLast? = some (.i 1) ∧
          e.pointEnd.getLast? = some ((abf.sweepPointCount : Int) +
            ((abf.sweepPointCount / 64 : Nat) : Int)))) := by
  rcases h with h1 | h2
  · refine ⟨_, _, construct_v1 abf ch h1, ?_, ?_⟩
    · obtain ⟨-, -, -, -, -, -, -, -, -, f11, -, -, -⟩ :=
        labelsDetails_proj (updateForABFv1 (initEpochVars abf ch))
      rw [f11]
      simp [updateForABFv1, initEpochVars]
    · intro h2'
      exact absurd (h1.symm.trans h2') (by decide)
  · obtain ⟨f1, f2, f3, f4, -, f6, -, -, -, f11, -, -, -⟩ :=
      labelsDetails_proj (addPostEpoch (stageEpochs abf ch))
    obtain ⟨hh1, hh2, hh3, hh4⟩ := stage_head abf ch
    obtain ⟨p1, p2, p3, p4, p5, p6, p7, p8⟩ := stage_parLen abf ch
    have hst := stage_type_len abf ch
    obtain ⟨c1, c2, c3, -, -⟩ := stage_const abf ch
    refine ⟨_, _, construct_v2 abf ch h2, ?_, ?_⟩
    · rw [f11]
      exact addPost_type_len _ hst
    · intro _
      by_cases hsus : abf.nInterEpisodeLevel ch = 0
      · obtain ⟨g1, g2, g3, g4, -, g6, -, -, -⟩ :=
          addPost_fields_revert _ (by rw [c1, c2]; exact hsus)
        refine ⟨?_, ?_, ?_, ?_, ?_⟩
        · rw [f1, g1]
          exact (List.getElem?_append_left (by omega)).trans hh1
        · rw [f3, g3]
          exact (List.getElem?_append_left (by omega)).trans hh2
        · rw [f4, g4]
          exact (List.getElem?_append_left (by omega)).trans hh3
        · rw [f6, g6]
          exact (List.getElem?_append_left (by omega)).trans hh4
        · intro _
          refine ⟨?_, ?_, ?_, ?_⟩
          · rw [f11, g3]
            simp only [List.length_append, List.length_cons, List.length_nil]
            omega
          · rw [f6, g6, List.getLast?_concat]
          · rw [f3, g3, List.getLast?_concat]
          · rw [f2, g2, c1, c3, List.getLast?_concat]
      · obtain ⟨g1, -, g3, g4, -, g6, -, -, -⟩ :=
          addPost_fields_sustain _ (by rw [c1, c2]; exact hsus)
        refine ⟨?_, ?_, ?_, ?_, fun h0 => absurd h0 hsus⟩
        · rw [f1, g1]
          exact hh1
        · rw [f3, g3]
          exact hh2
        · rw [f4, g4]
          exact hh3
        · rw [f6, g6]
          exact hh4

/-- Counterexample to claim C6 as frozen: with the sustain flag set and
zero real epochs the constructed timeline has exactly one epoch, so it
cannot contain both a pre-epoch and a post-epoch. -/
theorem C6_counterexample :
    (constructEpochs abfNoRowsSustain 0).map (fun p => p.1.epochCount) = some 1 := by
  decide

/-- Witness for `C6_amended_nonempty` at a concrete header. -/
theorem C6_witness :
    (abfSeg.abfFileFormat = 1 ∨ abfSeg.abfFileFormat = 2) ∧
      ∃ e ws, constructEpochs abfSeg 0 = some (e, ws) ∧ 0 < e.epochCount ∧
        (abfSeg.abfFileFormat = 2 →
          e.pointStart[0]? = some 0 ∧ e.type[0]? = some (.i 1) ∧
          e.level[0]? = some (abfSeg.holdingCommand 0) ∧
          e.duration[0]? = some ((abfSeg.sweepPointCount / 64 : Nat) : Int) ∧
          (abfSeg.nInterEpisodeLevel 0 = 0 →
            2 ≤ e.epochCount ∧ e.duration.getLast? = some 0 ∧
            e.type.getLast? = some (.i 1) ∧
            e.pointEnd.getLast? = some ((abfSeg.sweepPointCount : Int) +
              ((abfSeg.sweepPointCount / 64 : Nat) : Int)))) :=
  ⟨Or.inr rfl, C6_amended_nonempty abfSeg 0 (Or.inr rfl)⟩

/-! ## Claim C7 -/

/-- The cumulative `pointStart[-1] + duration[-1]` of the staged state
equals the pre-offset plus the matching rows' total duration. -/
theorem stage_S (abf : ABFData) (ch : Nat) :
    (stageEpochs abf ch).pointStart.getLastD 0 +
      (stageEpochs abf ch).duration.getLastD 0 =
    ((abf.sweepPointCount / 64 : Nat) : Int) + matchedDurSum abf.epochRows ch := by
  unfold stageEpochs fillEpochsFromABF
  rw [fill_S]
  simp [addPreEpoch, initEpochVars]

/-- Claim C7, amended.  The claim as frozen is false: when the matching
rows overrun the sweep, the synthetic post-epoch gets `end < start`
(see `C7_counterexample`).  Amended: with non-negative header durations
and, for the segmented format, matching durations summing to at most
`sweepLength - 1`, every epoch of the constructed timeline satisfies
`0 ≤ startSample ≤ endSample`. -/
theorem C7_amended_boundsInvariant (abf : ABFData) (ch : Nat)
    (hfmt : abf.abfFileFormat = 1 ∨ abf.abfFileFormat = 2)
    (hd : ∀ r ∈ abf.epochRows, 0 ≤ r.lEpochInitDuration)
    (hsum : abf.abfFileFormat = 2 →
      matchedDurSum abf.epochRows ch ≤ (abf.sweepPointCount : Int) - 1) :
    ∃ e ws, constructEpochs abf ch = some (e, ws) ∧
      ∀ i, i < e.epochCount →
        ∃ s t, e.pointStart[i]? = some s ∧ e.pointEnd[i]? = some t ∧
          0 ≤ s ∧ s ≤ t := by
  rcases hfmt with h1 | h2
  · refine ⟨_, _, construct_v1 abf ch h1, ?_⟩
    obtain ⟨f1, f2, -, -, -, -, -, -, -, f11, -, -, -⟩ :=
      labelsDetails_proj (updateForABFv1 (initEpochVars abf ch))
    rw [f1, f2, f11]
    intro i hi
    have hi0 : i = 0 := by
      simp [updateForABFv1, initEpochVars] at hi
      omega
    subst hi0
    exact ⟨0, (abf.sweepPointCount : Int),
      by simp [updateForABFv1, initEpochVars],
      by simp [updateForABFv1, initEpochVars], le_refl 0, by omega⟩
  · have hsum2 := hsum h2
    refine ⟨_, _, construct_v2 abf ch h2, ?_⟩
    obtain ⟨f1, f2, -, -, -, -, -, -, -, f11, -, -, -⟩ :=
      labelsDetails_proj (addPostEpoch (stageEpochs abf ch))
    rw [f1, f2, f11]
    obtain ⟨hB, hls0, hld0, hBlen⟩ := stage_bstate abf ch hd
    obtain ⟨p1, p2, p3, p4, p5, p6, p7, p8⟩ := stage_parLen abf ch
    have hst := stage_type_len abf ch
    obtain ⟨c1, c2, c3, -, -⟩ := stage_const abf ch
    obtain ⟨-, -, hclast⟩ := stage_chain abf ch
    have hS := stage_S abf ch
    by_cases hsus : (stageEpochs abf ch).abf.nInterEpisodeLevel
        (stageEpochs abf ch).channel ≠ 0
    · obtain ⟨g1, g2, g3, -, -, -, -, -, -⟩ := addPost_fields_sustain _ hsus
      rw [g1, g2, g3, c1, c3]
      intro i hi
      unfold setLastI
      rcases Nat.lt_or_ge i ((stageEpochs abf ch).pointStart.length - 1) with hc | hc
      · obtain ⟨s, t, hsi, hti, hs0, hstt⟩ := hB i (by omega)
        refine ⟨s, t, hsi, ?_, hs0, hstt⟩
        rw [List.getElem?_append_left (by rw [List.length_dropLast]; omega),
            List.getElem?_dropLast, if_pos (by omega)]
        exact hti
      · have hie : i = (stageEpochs abf ch).pointStart.length - 1 := by omega
        obtain ⟨s, t, hsi, hti, hs0, hstt⟩ := hB i (by omega)
        refine ⟨s, (abf.sweepPointCount : Int) - 1 +
          ((abf.sweepPointCount / 64 : Nat) : Int), hsi, ?_, hs0, ?_⟩
        · rw [List.getElem?_append_right (by rw [List.length_dropLast]; omega)]
          have h0 : i - (stageEpochs abf ch).pointEnd.dropLast.length = 0 := by
            rw [List.length_dropLast]
            omega
          rw [h0]
          rfl
        · have hlast1 : (stageEpochs abf ch).pointStart.getLast? = some s := by
            rw [List.getLast?_eq_getElem?]
            have hh : (stageEpochs abf ch).pointStart.length - 1 = i := hie.symm
            rw [hh]
            exact hsi
          have hlastD : (stageEpochs abf ch).pointStart.getLastD 0 = s := by
            rw [List.getLastD_eq_getLast?, hlast1]
            rfl
          omega
    · have hsus0 : (stageEpochs abf ch).abf.nInterEpisodeLevel
          (stageEpochs abf ch).channel = 0 := by
        push_neg at hsus
        exact hsus
      obtain ⟨g1, g2, g3, -, -, -, -, -, -⟩ := addPost_fields_revert _ hsus0
      rw [g1, g2, g3, c1, c3]
      intro i hi
      simp only [List.length_append, List.length_cons, List.length_nil] at hi
      rcases Nat.lt_or_ge i (stageEpochs abf ch).pointStart.length with hc | hc
      · obtain ⟨s, t, hsi, hti, hs0, hstt⟩ := hB i hc
        exact ⟨s, t, by rw [List.getElem?_append_left hc]; exact hsi,
          by rw [List.getElem?_append_left (by omega)]; exact hti, hs0, hstt⟩
      · have hlastE : (stageEpochs abf ch).pointEnd.getLastD 0 =
            (stageEpochs abf ch).pointStart.getLastD 0 +
              (stageEpochs abf ch).duration.getLastD 0 := by
          rw [List.getLastD_eq_getLast?, hclast]
          rfl
        refine ⟨(stageEpochs abf ch).pointEnd.getLastD 0,
          (abf.sweepPointCount : Int) + ((abf.sweepPointCount / 64 : Nat) : Int),
          ?_, ?_, by omega, by omega⟩
        · rw [List.getElem?_append_right (by omega)]
          have h0 : i - (stageEpochs abf ch).pointStart.length = 0 := by omega
          rw [h0]
          rfl
        · rw [List.getElem?_append_right (by omega)]
          have h0 : i - (stageEpochs abf ch).pointEnd.length = 0 := by omega
          rw [h0]
          rfl

/-- Counterexample to claim C7 as frozen: a segmented header whose
matching durations overrun the sweep builds a final epoch with
`startSample = 101 > endSample = 65`. -/
theorem C7_counterexample :
    (constructEpochs abfOverrun 0).map
      (fun p => (p.1.pointStart.getLastD 0, p.1.pointEnd.getLastD 0)) =
        some (101, 65) ∧
    ¬ ((101 : Int) ≤ 65) := by
  constructor
  · decide
  · decide

/-- Witness for `C7_amended_boundsInvariant` at a concrete header. -/
theorem C7_witness :
    (abfSeg.abfFileFormat = 1 ∨ abfSeg.abfFileFormat = 2) ∧
      (∀ r ∈ abfSeg.epochRows, 0 ≤ r.lEpochInitDuration) ∧
      (abfSeg.abfFileFormat = 2 →
        matchedDurSum abfSeg.epochRows 0 ≤ (abfSeg.sweepPointCount : Int) - 1) ∧
      ∃ e ws, constructEpochs abfSeg 0 = some (e, ws) ∧
        ∀ i, i < e.epochCount →
          ∃ s t, e.pointStart[i]? = some s ∧ e.pointEnd[i]? = some t ∧
            0 ≤ s ∧ s ≤ t :=
  ⟨Or.inr rfl, by decide, by decide,
    C7_amended_boundsInvariant abfSeg 0 (Or.inr rfl) (by decide) (by decide)⟩

/-! ## Claim C9: label derivation -/

theorem char_toNat_ofNat (n : Nat) (h : n < 55296) : (Char.ofNat n).toNat = n := by
  have hv : n.isValidChar := Or.inl h
  unfold Char.ofNat
  rw [dif_pos hv]
  rfl

theorem labelFn_post {n : Nat} {dlast : Int} {x : Nat}
    (h1 : x + 1 = n) (h2 : dlast = 0) : labelFn n dlast x = "post" := by
  unfold labelFn
  rw [if_pos (And.intro h1 h2)]

theorem labelFn_pre {n : Nat} {dlast : Int} {x : Nat}
    (hx : x = 0) (h : ¬ (x + 1 = n ∧ dlast = 0)) : labelFn n dlast x = "pre" := by
  unfold labelFn
  rw [if_neg h, if_pos hx]

theorem labelFn_letter {n : Nat} {dlast : Int} {x : Nat}
    (hx : x ≠ 0) (h : ¬ (x + 1 = n ∧ dlast = 0)) :
    labelFn n dlast x = String.mk [Char.ofNat (x + 64)] := by
  unfold labelFn
  rw [if_neg h, if_neg hx]

theorem createEpochLabels_label (e : Epochs) (hne : 0 < e.type.length) :
    (createEpochLabels e).label =
      (List.range e.type.length).map (labelFn e.type.length (e.duration.getLastD 0)) := by
  have hl1len : (((List.range e.type.length).map
      (fun x => String.mk [Char.ofNat (x + 64)])).set 0 "pre").length =
      e.type.length := by
    simp
  have hl1 : ∀ i, i < e.type.length →
      (((List.range e.type.length).map
        (fun x => String.mk [Char.ofNat (x + 64)])).set 0 "pre")[i]? =
        some (if i = 0 then "pre" else String.mk [Char.ofNat (i + 64)]) := by
    intro i hin
    by_cases hi0 : i = 0
    · subst hi0
      rw [List.getElem?_set_self (by simp [hin])]
      simp
    · rw [List.getElem?_set_ne (by omega), List.getElem?_map,
        List.getElem?_range hin]
      simp [hi0]
  unfold createEpochLabels setLastS
  dsimp only
  apply List.ext_getElem?
  intro i
  rw [List.getElem?_map]
  rcases Nat.lt_or_ge i e.type.length with hin | hin
  · rw [List.getElem?_range hin]
    simp only [Option.map_some']
    by_cases hdl : e.duration.getLastD 0 = 0
    · rw [if_pos hdl]
      rcases Nat.lt_or_ge i (e.type.length - 1) with hlt | hge
      · rw [List.getElem?_append_left (by rw [List.length_dropLast, hl1len]; omega),
          List.getElem?_dropLast, hl1len, if_pos hlt, hl1 i hin]
        have hne3 : ¬ (i + 1 = e.type.length ∧ e.duration.getLastD 0 = 0) := by
          intro hand
          obtain ⟨ha, -⟩ := hand
          omega
        by_cases hi0 : i = 0
        · rw [if_pos hi0, labelFn_pre hi0 hne3]
        · rw [if_neg hi0, labelFn_letter hi0 hne3]
      · rw [List.getElem?_append_right (by rw [List.length_dropLast, hl1len]; omega)]
        rw [List.length_dropLast, hl1len]
        have h0 : i - (e.type.length - 1) = 0 := by omega
        rw [h0]
        have h1 : i + 1 = e.type.length := by omega
        rw [labelFn_post h1 hdl]
        rfl
    · rw [if_neg hdl, hl1 i hin]
      have hne3 : ¬ (i + 1 = e.type.length ∧ e.duration.getLastD 0 = 0) := by
        intro hand
        exact hdl hand.2
      by_cases hi0 : i = 0
      · rw [if_pos hi0, labelFn_pre hi0 hne3]
      · rw [if_neg hi0, labelFn_letter hi0 hne3]
  · have hr : (List.range e.type.length)[i]? = none :=
      List.getElem?_eq_none (by rw [List.length_range]; omega)
    rw [hr, Option.map_none']
    by_cases hdl : e.duration.getLastD 0 = 0
    · rw [if_pos hdl]
      exact List.getElem?_eq_none (by
        simp only [List.length_append, List.length_dropLast, hl1len,
          List.length_cons, List.length_nil]
        omega)
    · rw [if_neg hdl]
      exact List.getElem?_eq_none (by rw [hl1len]; omega)

theorem label_props (x : Epochs) (hne : 0 < x.type.length) :
    (updateEpochDetails (createEpochLabels x)).label.length = x.type.length ∧
    (x.duration.getLastD 0 = 0 →
      (updateEpochDetails (createEpochLabels x)).label.getLast? = some "post") ∧
    ((2 ≤ x.type.length ∨ x.duration.getLastD 0 ≠ 0) →
      (updateEpochDetails (createEpochLabels x)).label[0]? = some "pre") ∧
    (∀ i, 0 < i → i + 1 < x.type.length →
      (updateEpochDetails (createEpochLabels x)).label[i]? =
        some (String.mk [Char.ofNat (i + 64)])) ∧
    (x.duration.getLastD 0 ≠ 0 → ∀ i, 0 < i → i < x.type.length →
      (updateEpochDetails (createEpochLabels x)).label[i]? =
        some (String.mk [Char.ofNat (i + 64)])) ∧
    (x.type.length ≤ 55232 → (updateEpochDetails (createEpochLabels x)).label.Nodup) ∧
    (x.type.length = 1 ∧ x.duration.getLastD 0 = 0 →
      (updateEpochDetails (createEpochLabels x)).label = ["post"]) := by
  have hlab : (updateEpochDetails (createEpochLabels x)).label =
      (List.range x.type.length).map (labelFn x.type.length (x.duration.getLastD 0)) :=
    createEpochLabels_label x hne
  rw [hlab]
  refine ⟨by simp, ?_, ?_, ?_, ?_, ?_, ?_⟩
  · intro h0
    rw [List.getLast?_eq_getElem?]
    simp only [List.length_map, List.length_range]
    rw [List.getElem?_map, List.getElem?_range (by omega)]
    simp only [Option.map_some']
    rw [labelFn_post (by omega) h0]
  · intro hpre
    rw [List.getElem?_map, List.getElem?_range (by omega)]
    simp only [Option.map_some']
    rw [labelFn_pre rfl (by
      intro hand
      obtain ⟨ha, hb⟩ := hand
      rcases hpre with h2 | hd0
      · omega
      · exact hd0 hb)]
  · intro i h0i hi1
    rw [List.getElem?_map, List.getElem?_range (by omega)]
    simp only [Option.map_some']
    rw [labelFn_letter (by omega) (by
      intro hand
      obtain ⟨ha, hb⟩ := hand
      omega)]
  · intro hd0 i h0i hin
    rw [List.getElem?_map, List.getElem?_range (by omega)]
    simp only [Option.map_some']
    rw [labelFn_letter (by omega) (by
      intro hand
      obtain ⟨ha, hb⟩ := hand
      exact hd0 hb)]
  · intro hbound
    apply List.Nodup.map_on ?_ (List.nodup_range x.type.length)
    intro a ha b hb hab
    rw [List.mem_range] at ha hb
    have epost : ("post" : String).length = 4 := rfl
    have epre : ("pre" : String).length = 3 := rfl
    by_cases ha1 : a + 1 = x.type.length ∧ x.duration.getLastD 0 = 0 <;>
      by_cases hb1 : b + 1 = x.type.length ∧ x.duration.getLastD 0 = 0
    · obtain ⟨ha1', -⟩ := ha1
      obtain ⟨hb1', -⟩ := hb1
      omega
    · rw [labelFn_post ha1.1 ha1.2] at hab
      by_cases hb0 : b = 0
      · rw [labelFn_pre hb0 hb1] at hab
        exact absurd hab (by decide)
      · rw [labelFn_letter hb0 hb1] at hab
        have hlen := congrArg String.length hab
        have e1 : (String.mk [Char.ofNat (b + 64)]).length = 1 := rfl
        omega
    · rw [labelFn_post hb1.1 hb1.2] at hab
      by_cases ha0 : a = 0
      · rw [labelFn_pre ha0 ha1] at hab
        exact absurd hab (by decide)
      · rw [labelFn_letter ha0 ha1] at hab
        have hlen := congrArg String.length hab
        have e1 : (String.mk [Char.ofNat (a + 64)]).length = 1 := rfl
        omega
    · by_cases ha0 : a = 0 <;> by_cases hb0 : b = 0
      · omega
      · rw [labelFn_pre ha0 ha1, labelFn_letter hb0 hb1] at hab
        have hlen := congrArg String.length hab
        have e1 : (String.mk [Char.ofNat (b + 64)]).length = 1 := rfl
        omega
      · rw [labelFn_letter ha0 ha1, labelFn_pre hb0 hb1] at hab
        have hlen := congrArg String.length hab
        have e1 : (String.mk [Char.ofNat (a + 64)]).length = 1 := rfl
        omega
      · rw [labelFn_letter ha0 ha1, labelFn_letter hb0 hb1] at hab
        injection hab with hd
        injection hd with hc hnil
        have h1 := char_toNat_ofNat (a + 64) (by omega)
        have h2 := char_toNat_ofNat (b + 64) (by omega)
        have h3 := congrArg Char.toNat hc
        omega
  · rintro ⟨hone, hd0⟩
    rw [hone]
    have hr1 : List.range 1 = [0] := rfl
    rw [hr1, List.map_cons, List.map_nil, labelFn_post (by omega) hd0]

/-- Claim C9, amended.  The claim as frozen is false: on a one-epoch
timeline whose epoch has zero base duration the `"post"` relabelling
overwrites the `"pre"` label, so the first label is `"post"`, not
`"pre"` (see `C9_counterexample`).  Amended: the labels are assigned in
order `chr(64 + position)`, then position 0 is relabelled `"pre"`, then
the last position is relabelled `"post"` when the last base duration is
zero, this last relabelling winning at position 0 when the timeline has
exactly one epoch; the labels are pairwise distinct (for any epoch
count below the unicode surrogate range). -/
theorem C9_amended_labels (abf : ABFData) (ch : Nat)
    (h : abf.abfFileFormat = 1 ∨ abf.abfFileFormat = 2) :
    ∃ e ws, constructEpochs abf ch = some (e, ws) ∧
      e.label.length = e.epochCount ∧
      (e.duration.getLastD 0 = 0 → e.label.getLast? = some "post") ∧
      ((2 ≤ e.epochCount ∨ e.duration.getLastD 0 ≠ 0) → e.label[0]? = some "pre") ∧
      (∀ i, 0 < i → i + 1 < e.epochCount →
        e.label[i]? = some (String.mk [Char.ofNat (i + 64)])) ∧
      (e.duration.getLastD 0 ≠ 0 → ∀ i, 0 < i → i < e.epochCount →
        e.label[i]? = some (String.mk [Char.ofNat (i + 64)])) ∧
      (e.epochCount ≤ 55232 → e.label.Nodup) ∧
      (e.epochCount = 1 ∧ e.duration.getLastD 0 = 0 → e.label = ["post"]) := by
  rcases h with h1 | h2
  · refine ⟨_, _, construct_v1 abf ch h1, ?_⟩
    obtain ⟨-, -, -, -, -, f6, -, -, -, f11, -, -, -⟩ :=
      labelsDetails_proj (updateForABFv1 (initEpochVars abf ch))
    rw [f6, f11]
    exact label_props (updateForABFv1 (initEpochVars abf ch))
      (by simp [updateForABFv1, initEpochVars])
  · refine ⟨_, _, construct_v2 abf ch h2, ?_⟩
    obtain ⟨-, -, -, -, -, f6, -, -, -, f11, -, -, -⟩ :=
      labelsDetails_proj (addPostEpoch (stageEpochs abf ch))
    rw [f6, f11]
    exact label_props (addPostEpoch (stageEpochs abf ch))
      (addPost_type_len _ (stage_type_len abf ch))

/-- Counterexample to claim C9 as frozen: this constructed timeline's
label list is `["post"]`, so its first epoch's label is not `"pre"`. -/
theorem C9_counterexample :
    (constructEpochs abfTiny 0).map (fun p => p.1.label) = some ["post"] ∧
      "post" ≠ "pre" := by
  constructor
  · decide
  · decide

/-- Witness for `C9_amended_labels` at a concrete header. -/
theorem C9_witness :
    (abfSeg.abfFileFormat = 1 ∨ abfSeg.abfFileFormat = 2) ∧
      ∃ e ws, constructEpochs abfSeg 0 = some (e, ws) ∧
        e.label.length = e.epochCount ∧
        (e.duration.getLastD 0 = 0 → e.label.getLast? = some "post") ∧
        ((2 ≤ e.epochCount ∨ e.duration.getLastD 0 ≠ 0) → e.label[0]? = some "pre") ∧
        (∀ i, 0 < i → i + 1 < e.epochCount →
          e.label[i]? = some (String.mk [Char.ofNat (i + 64)])) ∧
        (e.duration.getLastD 0 ≠ 0 → ∀ i, 0 < i → i < e.epochCount →
          e.label[i]? = some (String.mk [Char.ofNat (i + 64)])) ∧
        (e.epochCount ≤ 55232 → e.label.Nodup) ∧
        (e.epochCount = 1 ∧ e.duration.getLastD 0 = 0 → e.label = ["post"]) :=
  ⟨Or.inr rfl, C9_amended_labels abfSeg 0 (Or.inr rfl)⟩


unseal Rat.add Rat.mul in
/-- Claim C4 is a code bug: `_txtFmt("Type", self.type)` rewrites the
object's `type` list in place (ints become strings), so invoking the
display-text formatter changes later synthesis.  On this timeline the
Off epoch is skipped before the formatter runs but filled with its
level 5 afterwards (a string compares unequal to the int 0), so the two
synthesized waveforms differ over the Off epoch's range. -/
theorem C4_textMutatesSynthesis :
    ((constructEpochs abfOffEpoch 0).bind fun p =>
      (textEffect p.1).bind fun e2 => stimulusWaveform e2 0) ≠
    ((constructEpochs abfOffEpoch 0).bind fun p => stimulusWaveform p.1 0) := by
  decide

/-- Witness for `C10_parallelLengths` at a concrete header. -/
theorem C10_witness :
    (abfSeg.abfFileFormat = 1 ∨ abfSeg.abfFileFormat = 2) ∧
      ∃ e ws, constructEpochs abfSeg 0 = some (e, ws) ∧
        e.pointStart.length = e.epochCount ∧ e.pointEnd.length = e.epochCount ∧
        e.type.length = e.epochCount ∧ e.level.length = e.epochCount ∧
        e.levelDelta.length = e.epochCount ∧ e.duration.length = e.epochCount ∧
        e.durationDelta.length = e.epochCount ∧ e.pulsePeriod.length = e.epochCount ∧
        e.pulseWidth.length = e.epochCount ∧ e.label.length = e.epochCount :=
  ⟨Or.inr rfl, C10_parallelLengths abfSeg 0 (Or.inr rfl)⟩

end PyABF
